import Mathlib

/-!
Verification of the `rv` RV64 instruction-set simulator.

This file is a shallow embedding of the hart execution engine found in
`src/hart.rs`, `src/hart/csr.rs`, `src/hart/instruction.rs`, together with the
main-memory bus back-end from `src/memory.rs`.  Machine integers (`u64`, `u32`,
`u16`, `u8`, `u16` CSR addresses) are represented as `Nat` bit patterns with
explicit `% 2 ^ w` reductions at every point where the Rust code performs
wrapping arithmetic; signed casts and arithmetic shifts are expressed through
explicit sign-extension helpers.

One ghost component is added to the hart state: a `raised` field recording the
`TrapCause` passed to the most recent `trap` call of the current `execute`
step (it is cleared at the top of `execute` and set inside `trap`).  It has no
influence on any other component and merely makes "a trap was raised during
this step, with this cause" expressible in theorem statements.
-/

set_option maxRecDepth 4096

namespace Rv

/-- Powers of two used for the fixed-width integer reductions. -/
def pow64 : Nat := 2 ^ 64

def pow32 : Nat := 2 ^ 32

/-- Bus error type from `src/bus.rs`: `enum BusError` with the two precise
fault categories. -/
inductive BusError where
  | AccessFault
  | AddressMisaligned
deriving DecidableEq, Repr

/-- The `Bus<A, V>` trait of `src/bus.rs`, specialised to 64-bit addresses,
as a dictionary of typed load/store operations over a bus state `B`
(`fn load(&self, address) -> Result<V, BusError>` and
`fn store(&self, address, value) -> Result<(), BusError>`; a store yields the
updated bus state). -/
structure BusOps (B : Type) where
  load8 : B → Nat → Except BusError Nat
  load16 : B → Nat → Except BusError Nat
  load32 : B → Nat → Except BusError Nat
  load64 : B → Nat → Except BusError Nat
  store8 : B → Nat → Nat → Except BusError B
  store16 : B → Nat → Nat → Except BusError B
  store32 : B → Nat → Nat → Except BusError B
  store64 : B → Nat → Nat → Except BusError B

/-- The `PrivilegeLevel` enum of `src/hart.rs`. -/
inductive PrivilegeLevel where
  | User
  | Supervisor
  | Machine
deriving DecidableEq, Repr

/-- Numeric encoding of a privilege level (`User = 0b00`, `Supervisor = 0b01`,
`Machine = 0b11`), the value produced by `privilege as u16`. -/
def PrivilegeLevel.toNat : PrivilegeLevel → Nat
  | .User => 0
  | .Supervisor => 1
  | .Machine => 3

/-- The `TrapCause` enum of `src/hart.rs` (interrupts carry bit 63 in their
`u64` representation, exceptions are the bare cause code). -/
inductive TrapCause where
  | UserSoftwareInterrupt
  | SupervisorSoftwareInterrupt
  | MachineSoftwareInterrupt
  | UserTimerInterrupt
  | SupervisorTimerInterrupt
  | MachineTimerInterrupt
  | UserExternalInterrupt
  | SupervisorExternalInterrupt
  | MachineExternalInterrupt
  | InstructionAddressMisaligned
  | InstructionAccessFault
  | IllegalInstruction
  | Breakpoint
  | LoadAddressMisaligned
  | LoadAccessFault
  | StoreAmoAddressMisaligned
  | StoreAmoAccessFault
  | EnvironmentCallFromUMode
  | EnvironmentCallFromSMode
  | EnvironmentCallFromMMode
  | InstructionPageFault
  | LoadPageFault
  | StoreAmoPageFault
deriving DecidableEq, Repr

/-- The `u64` discriminant of a `TrapCause` (`Self::interrupt(code)` is
`code | 1 << 63`, `Self::exception(code)` is `code`). -/
def TrapCause.val : TrapCause → Nat
  | .UserSoftwareInterrupt => 0 + 2 ^ 63
  | .SupervisorSoftwareInterrupt => 1 + 2 ^ 63
  | .MachineSoftwareInterrupt => 2 + 2 ^ 63
  | .UserTimerInterrupt => 4 + 2 ^ 63
  | .SupervisorTimerInterrupt => 5 + 2 ^ 63
  | .MachineTimerInterrupt => 7 + 2 ^ 63
  | .UserExternalInterrupt => 8 + 2 ^ 63
  | .SupervisorExternalInterrupt => 9 + 2 ^ 63
  | .MachineExternalInterrupt => 11 + 2 ^ 63
  | .InstructionAddressMisaligned => 0
  | .InstructionAccessFault => 1
  | .IllegalInstruction => 2
  | .Breakpoint => 3
  | .LoadAddressMisaligned => 4
  | .LoadAccessFault => 5
  | .StoreAmoAddressMisaligned => 6
  | .StoreAmoAccessFault => 7
  | .EnvironmentCallFromUMode => 8
  | .EnvironmentCallFromSMode => 9
  | .EnvironmentCallFromMMode => 11
  | .InstructionPageFault => 12
  | .LoadPageFault => 13
  | .StoreAmoPageFault => 15

/-- The `TrapCause::is_interrupt` check: `self as u64 & 1 << 63 != 0`. -/
def TrapCause.isInterrupt (c : TrapCause) : Bool :=
  c.val &&& (1 <<< 63) != 0

/-- The CSR file of `src/hart/csr.rs` (`struct Csr`): per-register `u64`
storage. -/
structure Csr where
  status : Nat
  medeleg : Nat
  mideleg : Nat
  sie : Nat
  mie : Nat
  stvec : Nat
  mtvec : Nat
  sscratch : Nat
  mscratch : Nat
  sepc : Nat
  mepc : Nat
  scause : Nat
  mcause : Nat
  stval : Nat
  mtval : Nat
  sip : Nat
  mip : Nat
  mvendorid : Nat
  marchid : Nat
  mimpid : Nat
  mhartid : Nat
deriving DecidableEq, Repr

/-- The hart state of `src/hart.rs` (`struct Hart<B>`), plus the ghost
`raised` latch described in the file header. -/
structure Hart (B : Type) where
  privilege : PrivilegeLevel
  bus : B
  pc : Nat
  next : Nat
  gpr : Nat → Nat
  csr : Csr
  raised : Option TrapCause

/-- Pointwise general-purpose register update (`hart.gpr[i] = v`). -/
def gprWrite (g : Nat → Nat) (i v : Nat) : Nat → Nat :=
  fun j => if j = i then v else g j

/-- The `Hart::new` constructor: machine privilege, zeroed pc/next/GPRs, and a
CSR file of zeros. -/
def Hart.new {B : Type} (bus : B) : Hart B :=
  { privilege := .Machine
    bus := bus
    pc := 0
    next := 0
    gpr := fun _ => 0
    csr :=
      { status := 0, medeleg := 0, mideleg := 0, sie := 0, mie := 0
        stvec := 0, mtvec := 0, sscratch := 0, mscratch := 0
        sepc := 0, mepc := 0, scause := 0, mcause := 0, stval := 0, mtval := 0
        sip := 0, mip := 0, mvendorid := 0, marchid := 0, mimpid := 0, mhartid := 0 }
    raised := none }

/-- The `Tvec::mode` accessor: `self.0 & 0b11`. -/
def tvecMode (x : Nat) : Nat := x &&& 3

/-- The `Tvec::base` accessor: `self.0 & !0b11` (the `u64` complement of
`0b11` is `2 ^ 64 - 4`). -/
def tvecBase (x : Nat) : Nat := x &&& (pow64 - 4)

/-- The `Deleg::is_delegated` check:
`self.0.wrapping_shr(trap as u32) & 0b1 != 0`.  The cast `trap as u32`
truncates the `u64` discriminant to 32 bits and `wrapping_shr` masks the shift
amount to 6 bits. -/
def isDelegated (deleg : Nat) (c : TrapCause) : Bool :=
  (deleg >>> (c.val % pow32 % 64)) &&& 1 != 0

/-- The `Hart::handle_trap_machine` routine: write `mcause`, `mepc`
(`next` for interrupts, `pc` for exceptions) and `mtval`, then redirect `next`
to the machine trap vector base when `mtvec` is in direct mode. -/
def handleTrapMachine {B : Type} (h : Hart B) (cause : TrapCause) (value : Nat) : Hart B :=
  let csr := { h.csr with
    mcause := cause.val
    mepc := if cause.isInterrupt then h.next else h.pc
    mtval := value }
  if tvecMode csr.mtvec = 0 then
    { h with csr := csr, next := tvecBase csr.mtvec }
  else
    { h with csr := csr }

/-- The `Hart::handle_trap_supervisor` routine, the supervisor analogue of
`handleTrapMachine` over `scause`, `sepc`, `stval` and `stvec`. -/
def handleTrapSupervisor {B : Type} (h : Hart B) (cause : TrapCause) (value : Nat) : Hart B :=
  let csr := { h.csr with
    scause := cause.val
    sepc := if cause.isInterrupt then h.next else h.pc
    stval := value }
  if tvecMode csr.stvec = 0 then
    { h with csr := csr, next := tvecBase csr.stvec }
  else
    { h with csr := csr }

/-- The `Hart::trap` routine of `src/hart.rs`: promote `User` to
`Supervisor`; from `Supervisor`, delegate when `medeleg` or `mideleg` has the
corresponding bit set, otherwise fall to `Machine`; record the cause in the
ghost `raised` latch. -/
def trap {B : Type} (h : Hart B) (cause : TrapCause) (value : Nat) : Hart B :=
  let h := { h with raised := some cause }
  let h := if h.privilege = .User then { h with privilege := .Supervisor } else h
  if h.privilege = .Supervisor then
    if isDelegated h.csr.medeleg cause || isDelegated h.csr.mideleg cause then
      handleTrapSupervisor h cause value
    else
      handleTrapMachine { h with privilege := .Machine } cause value
  else
    handleTrapMachine h cause value

/-- Bitwise complement of a `u64` value (`!x`), for `x < 2 ^ 64`. -/
def not64 (x : Nat) : Nat := x ^^^ (pow64 - 1)

/-- The `is_sufficient_privilege` check of `src/hart/csr.rs`:
`address.inner() >> 8 & 0b11 >= privilege as u16`. -/
def is_sufficient_privilege (address : Nat) (privilege : PrivilegeLevel) : Bool :=
  decide (address >>> 8 &&& 3 ≥ privilege.toNat)

/-- The `is_read_only` check of `src/hart/csr.rs`:
`address.inner() & 0b11 << 10 == 0b11 << 10`. -/
def is_read_only (address : Nat) : Bool :=
  address &&& (3 <<< 10) == 3 <<< 10

/-- A plain CSR cell access (`Ip`, `Ie`, `Tval`, `Cause`, `Epc`, `Scratch`,
`Deleg` all share it): `self.0 = f(self.0); self.0`.  The pair is
(new stored value, returned value); note the routine returns the updated
value, not the original one. -/
def cellAccess (x : Nat) (f : Nat → Nat) : Nat × Nat :=
  (f x, f x)

/-- The `ReadOnly::access` routine: `f(self.0); self.0` — the function is
invoked but its result is discarded, and the stored value is returned. -/
def readOnlyAccess (x : Nat) (f : Nat → Nat) : Nat × Nat :=
  let _ := f x
  (x, x)

/-- The `Tvec::access` routine: `self.0 = f(self.0) & !0b10; self.0` (the
upper mode bit is forced to zero; `!0b10` as `u64` is `2 ^ 64 - 3`). -/
def tvecAccess (x : Nat) (f : Nat → Nat) : Nat × Nat :=
  (f x &&& (pow64 - 3), f x &&& (pow64 - 3))

/-- The `Status::M_WRITE_MASK` constant (bits 1,3,5,7,8,17,18,19,20,21,22). -/
def statusMWriteMask : Nat :=
  1 <<< 1 ||| 1 <<< 3 ||| 1 <<< 5 ||| 1 <<< 7 ||| 1 <<< 8 ||| 1 <<< 17 |||
    1 <<< 18 ||| 1 <<< 19 ||| 1 <<< 20 ||| 1 <<< 21 ||| 1 <<< 22

/-- The `Status::S_WRITE_MASK` constant (bits 1,5,8,18,19); `S_READ_MASK`
equals it. -/
def statusSWriteMask : Nat :=
  1 <<< 1 ||| 1 <<< 5 ||| 1 <<< 8 ||| 1 <<< 18 ||| 1 <<< 19

/-- The `Status::access_mstatus` routine:
`self.0 = self.0 & !M_WRITE_MASK | f(self.0) & M_WRITE_MASK; self.0`. -/
def accessMstatus (x : Nat) (f : Nat → Nat) : Nat × Nat :=
  let v := x &&& not64 statusMWriteMask ||| (f x &&& statusMWriteMask)
  (v, v)

/-- The `Status::access_sstatus` routine:
`self.0 = self.0 & !S_WRITE_MASK | f(self.0) & S_WRITE_MASK`, returning
`self.0 & S_READ_MASK`. -/
def accessSstatus (x : Nat) (f : Nat → Nat) : Nat × Nat :=
  let v := x &&& not64 statusSWriteMask ||| (f x &&& statusSWriteMask)
  (v, v &&& statusSWriteMask)

/-- The `Hart::csr` dispatcher of `src/hart.rs`: route a CSR address to the
matching register cell, or report `InvalidCsr` (`none`).  The numeric cases
mirror the `CsrAddress` constants of `src/hart/csr.rs`; note that the source
routes `SSTATUS` through `access_mstatus` and `MSTATUS` through
`access_sstatus` (the swap is present in the source), and that `MIDELEG`
(0x303) has no arm at all, so `mideleg` is unreachable through this
interface. -/
def hartCsr {B : Type} (h : Hart B) (address : Nat) (f : Nat → Nat) :
    Option (Hart B × Nat) :=
  match address with
  | 0x100 =>
    let r := accessMstatus h.csr.status f
    some ({ h with csr := { h.csr with status := r.1 } }, r.2)
  | 0x300 =>
    let r := accessSstatus h.csr.status f
    some ({ h with csr := { h.csr with status := r.1 } }, r.2)
  | 0x302 =>
    let r := cellAccess h.csr.medeleg f
    some ({ h with csr := { h.csr with medeleg := r.1 } }, r.2)
  | 0x104 =>
    let r := cellAccess h.csr.sie f
    some ({ h with csr := { h.csr with sie := r.1 } }, r.2)
  | 0x304 =>
    let r := cellAccess h.csr.mie f
    some ({ h with csr := { h.csr with mie := r.1 } }, r.2)
  | 0x105 =>
    let r := tvecAccess h.csr.stvec f
    some ({ h with csr := { h.csr with stvec := r.1 } }, r.2)
  | 0x305 =>
    let r := tvecAccess h.csr.mtvec f
    some ({ h with csr := { h.csr with mtvec := r.1 } }, r.2)
  | 0x140 =>
    let r := cellAccess h.csr.sscratch f
    some ({ h with csr := { h.csr with sscratch := r.1 } }, r.2)
  | 0x340 =>
    let r := cellAccess h.csr.mscratch f
    some ({ h with csr := { h.csr with mscratch := r.1 } }, r.2)
  | 0x141 =>
    let r := cellAccess h.csr.sepc f
    some ({ h with csr := { h.csr with sepc := r.1 } }, r.2)
  | 0x341 =>
    let r := cellAccess h.csr.mepc f
    some ({ h with csr := { h.csr with mepc := r.1 } }, r.2)
  | 0x142 =>
    let r := cellAccess h.csr.scause f
    some ({ h with csr := { h.csr with scause := r.1 } }, r.2)
  | 0x342 =>
    let r := cellAccess h.csr.mcause f
    some ({ h with csr := { h.csr with mcause := r.1 } }, r.2)
  | 0x143 =>
    let r := cellAccess h.csr.stval f
    some ({ h with csr := { h.csr with stval := r.1 } }, r.2)
  | 0x343 =>
    let r := cellAccess h.csr.mtval f
    some ({ h with csr := { h.csr with mtval := r.1 } }, r.2)
  | 0x144 =>
    let r := cellAccess h.csr.sip f
    some ({ h with csr := { h.csr with sip := r.1 } }, r.2)
  | 0x344 =>
    let r := cellAccess h.csr.mip f
    some ({ h with csr := { h.csr with mip := r.1 } }, r.2)
  | 0xF11 =>
    let r := readOnlyAccess h.csr.mvendorid f
    some ({ h with csr := { h.csr with mvendorid := r.1 } }, r.2)
  | 0xF12 =>
    let r := readOnlyAccess h.csr.marchid f
    some ({ h with csr := { h.csr with marchid := r.1 } }, r.2)
  | 0xF13 =>
    let r := readOnlyAccess h.csr.mimpid f
    some ({ h with csr := { h.csr with mimpid := r.1 } }, r.2)
  | 0xF14 =>
    let r := readOnlyAccess h.csr.mhartid f
    some ({ h with csr := { h.csr with mhartid := r.1 } }, r.2)
  | _ => none

/-- Sign extension of an 8-bit pattern to 64 bits (`x as i8 as u64`). -/
def sext8to64 (x : Nat) : Nat := if x.testBit 7 then x + (pow64 - 2 ^ 8) else x

/-- Sign extension of a 16-bit pattern to 64 bits (`x as i16 as u64`). -/
def sext16to64 (x : Nat) : Nat := if x.testBit 15 then x + (pow64 - 2 ^ 16) else x

/-- Sign extension of a 32-bit pattern to 64 bits (`x as i32 as u64`). -/
def sext32to64 (x : Nat) : Nat := if x.testBit 31 then x + (pow64 - pow32) else x

/-- Arithmetic shift right of a 32-bit pattern (`(x as i32) >> s` for
`s ≤ 32`): the vacated high bits are filled with bit 31. -/
def ashr32 (x s : Nat) : Nat :=
  if x.testBit 31 then x >>> s + (pow32 - 2 ^ (32 - s)) else x >>> s

/-- Arithmetic shift right of a 64-bit pattern (`(x as i64) >> s` for
`s ≤ 64`). -/
def sar64 (x s : Nat) : Nat :=
  if x.testBit 63 then x >>> s + (pow64 - 2 ^ (64 - s)) else x >>> s

/-- The signed (two's-complement) reading of a 64-bit pattern (`x as i64`). -/
def toI64 (x : Nat) : Int :=
  if x < 2 ^ 63 then (x : Int) else (x : Int) - (pow64 : Int)

/-- Wrapping 64-bit subtraction (`a.wrapping_sub(b)` for `a, b < 2 ^ 64`). -/
def wsub64 (a b : Nat) : Nat := (a + (pow64 - b % pow64)) % pow64

/-- The `rd` field extractor: `raw as usize >> 7 & 0b11111`. -/
def rdOf (raw : Nat) : Nat := raw >>> 7 &&& 31

/-- The `rs1` field extractor: `raw as usize >> 15 & 0b11111`. -/
def rs1Of (raw : Nat) : Nat := raw >>> 15 &&& 31

/-- The `rs2` field extractor: `raw as usize >> 20 & 0b11111`. -/
def rs2Of (raw : Nat) : Nat := raw >>> 20 &&& 31

/-- The I-type immediate as a 32-bit pattern (`raw as i32 >> 20`). -/
def i_imm32 (raw : Nat) : Nat := ashr32 raw 20

/-- The I-type immediate as a 64-bit pattern (`i_imm(raw) as u64`). -/
def i_imm64 (raw : Nat) : Nat := sext32to64 (i_imm32 raw)

/-- The S-type immediate as a 32-bit pattern:
`raw as i32 >> 7 & 0b11111 | raw as i32 >> 20 & !0 << 5`. -/
def s_imm32 (raw : Nat) : Nat :=
  ashr32 raw 7 &&& 0x1F ||| (ashr32 raw 20 &&& 0xFFFFFFE0)

/-- The S-type immediate as a 64-bit pattern (`s_imm(raw) as u64`). -/
def s_imm64 (raw : Nat) : Nat := sext32to64 (s_imm32 raw)

/-- The B-type immediate as a 32-bit pattern:
`(raw >> 7 & 0b11110) as i32 | raw as i32 >> 20 & (!0b11111 & !(1 << 11)) |
(raw << 4 & 1 << 11) as i32`. -/
def b_imm32 (raw : Nat) : Nat :=
  raw >>> 7 &&& 0x1E ||| (ashr32 raw 20 &&& (0xFFFFFFE0 &&& 0xFFFFF7FF)) |||
    ((raw <<< 4) % pow32 &&& (1 <<< 11))

/-- The B-type immediate as a 64-bit pattern (`b_imm(raw) as u64`). -/
def b_imm64 (raw : Nat) : Nat := sext32to64 (b_imm32 raw)

/-- The U-type immediate as a 32-bit pattern (`raw as i32 & !0 << 12`). -/
def u_imm32 (raw : Nat) : Nat := raw &&& 0xFFFFF000

/-- The U-type immediate as a 64-bit pattern (`u_imm(raw) as u64`). -/
def u_imm64 (raw : Nat) : Nat := sext32to64 (u_imm32 raw)

/-- The J-type immediate as a 32-bit pattern, translated verbatim from
`src/hart/instruction.rs`:
`raw as i32 >> 20 & (!0 << 1 & !(1 << 11)) | (raw >> 9 & 1 << 11) as i32`.
The arithmetic shift fills bits 12..31 of the result with raw bit 31 (there
is no term extracting raw bits 19:12). -/
def j_imm32 (raw : Nat) : Nat :=
  ashr32 raw 20 &&& (0xFFFFFFFE &&& 0xFFFFF7FF) ||| (raw >>> 9 &&& (1 <<< 11))

/-- The J-type immediate as a 64-bit pattern (`j_imm(raw) as u64`). -/
def j_imm64 (raw : Nat) : Nat := sext32to64 (j_imm32 raw)

/-- The `shamt` field extractor: `raw >> 20 & 0b111111`. -/
def shamtOf (raw : Nat) : Nat := raw >>> 20 &&& 0x3F

/-- The `csr` field extractor: `raw >> 20 & 0xFFF`. -/
def csrOf (raw : Nat) : Nat := raw >>> 20 &&& 0xFFF

/-- The `uimm` field extractor of immediate CSR instructions:
`raw >> 15 & 0b11111`. -/
def uimmOf (raw : Nat) : Nat := raw >>> 15 &&& 31

variable {B : Type}

/-- The `lui` handler: `gpr[rd] = u_imm(raw) as u64`. -/
def lui (_ops : BusOps B) (h : Hart B) (raw : Nat) : Hart B :=
  { h with gpr := gprWrite h.gpr (rdOf raw) (u_imm64 raw) }

/-- The `auipc` handler: `gpr[rd] = pc.wrapping_add(u_imm(raw) as u64)`. -/
def auipc (_ops : BusOps B) (h : Hart B) (raw : Nat) : Hart B :=
  { h with gpr := gprWrite h.gpr (rdOf raw) ((h.pc + u_imm64 raw) % pow64) }

/-- The `jal` handler: write `next` to `rd`, then commit
`target = pc + j_imm` only when 4-byte aligned, else raise
InstructionAddressMisaligned with the target as trap value. -/
def jal (_ops : BusOps B) (h : Hart B) (raw : Nat) : Hart B :=
  let h := { h with gpr := gprWrite h.gpr (rdOf raw) h.next }
  let target := (h.pc + j_imm64 raw) % pow64
  if target &&& 3 = 0 then
    { h with next := target }
  else
    trap h .InstructionAddressMisaligned target

/-- The `jalr` handler: write `next` to `rd` first, then compute
`target = (gpr[rs1] + i_imm) & !0 << 1` (reading `rs1` after the `rd` write,
as the source does), and apply the same alignment rule as `jal`. -/
def jalr (_ops : BusOps B) (h : Hart B) (raw : Nat) : Hart B :=
  let h := { h with gpr := gprWrite h.gpr (rdOf raw) h.next }
  let target := (h.gpr (rs1Of raw) + i_imm64 raw) % pow64 &&& (pow64 - 2)
  if target &&& 3 = 0 then
    { h with next := target }
  else
    trap h .InstructionAddressMisaligned target

/-- The shared `branch` helper: compute `target = pc + b_imm`; when the
condition holds, commit an aligned target to `next` or raise
InstructionAddressMisaligned. -/
def branchInstr (h : Hart B) (raw : Nat) (condition : Bool) : Hart B :=
  let target := (h.pc + b_imm64 raw) % pow64
  if condition then
    if target &&& 3 = 0 then
      { h with next := target }
    else
      trap h .InstructionAddressMisaligned target
  else
    h

/-- The `beq` handler. -/
def beq (_ops : BusOps B) (h : Hart B) (raw : Nat) : Hart B :=
  branchInstr h raw (decide (h.gpr (rs1Of raw) = h.gpr (rs2Of raw)))

/-- The `bne` handler. -/
def bne (_ops : BusOps B) (h : Hart B) (raw : Nat) : Hart B :=
  branchInstr h raw (decide (h.gpr (rs1Of raw) ≠ h.gpr (rs2Of raw)))

/-- The `blt` handler (signed comparison). -/
def blt (_ops : BusOps B) (h : Hart B) (raw : Nat) : Hart B :=
  branchInstr h raw (decide (toI64 (h.gpr (rs1Of raw)) < toI64 (h.gpr (rs2Of raw))))

/-- The `bge` handler (signed comparison). -/
def bge (_ops : BusOps B) (h : Hart B) (raw : Nat) : Hart B :=
  branchInstr h raw (decide (toI64 (h.gpr (rs1Of raw)) ≥ toI64 (h.gpr (rs2Of raw))))

/-- The `bltu` handler (unsigned comparison). -/
def bltu (_ops : BusOps B) (h : Hart B) (raw : Nat) : Hart B :=
  branchInstr h raw (decide (h.gpr (rs1Of raw) < h.gpr (rs2Of raw)))

/-- The `bgeu` handler (unsigned comparison). -/
def bgeu (_ops : BusOps B) (h : Hart B) (raw : Nat) : Hart B :=
  branchInstr h raw (decide (h.gpr (rs1Of raw) ≥ h.gpr (rs2Of raw)))

/-- The shared load helper `l`: effective address `gpr[rs1] + i_imm`; on
success convert the loaded value and write it to `rd`; translate bus errors
into LoadAccessFault / LoadAddressMisaligned with the address as trap
value. -/
def lInstr (load : B → Nat → Except BusError Nat) (convert : Nat → Nat)
    (h : Hart B) (raw : Nat) : Hart B :=
  let address := (h.gpr (rs1Of raw) + i_imm64 raw) % pow64
  match load h.bus address with
  | .ok value => { h with gpr := gprWrite h.gpr (rdOf raw) (convert value) }
  | .error .AccessFault => trap h .LoadAccessFault address
  | .error .AddressMisaligned => trap h .LoadAddressMisaligned address

/-- The `lb` handler: 8-bit load, sign-extended (`x as i8 as u64`). -/
def lb (ops : BusOps B) (h : Hart B) (raw : Nat) : Hart B :=
  lInstr ops.load8 sext8to64 h raw

/-- The `lh` handler: 16-bit load, sign-extended (`x as i16 as u64`). -/
def lh (ops : BusOps B) (h : Hart B) (raw : Nat) : Hart B :=
  lInstr ops.load16 sext16to64 h raw

/-- The `lw` handler: 32-bit load, sign-extended (`x as i32 as u64`). -/
def lw (ops : BusOps B) (h : Hart B) (raw : Nat) : Hart B :=
  lInstr ops.load32 sext32to64 h raw

/-- The `ld` handler: 64-bit load, stored verbatim. -/
def ld (ops : BusOps B) (h : Hart B) (raw : Nat) : Hart B :=
  lInstr ops.load64 (fun x => x) h raw

/-- The `lbu` handler: 8-bit load, zero-extended (`x as u64`). -/
def lbu (ops : BusOps B) (h : Hart B) (raw : Nat) : Hart B :=
  lInstr ops.load8 (fun x => x) h raw

/-- The `lhu` handler.  Its source declares the bound `B: Bus<u64, u8>`, so
the bus access it issues is an 8-bit load (not a 16-bit one), zero-extended
with `x as u64`. -/
def lhu (ops : BusOps B) (h : Hart B) (raw : Nat) : Hart B :=
  lInstr ops.load8 (fun x => x) h raw

/-- The `lwu` handler.  Its source declares the bound `B: Bus<u64, u8>`, so
the bus access it issues is an 8-bit load (not a 32-bit one), zero-extended
with `x as u64`. -/
def lwu (ops : BusOps B) (h : Hart B) (raw : Nat) : Hart B :=
  lInstr ops.load8 (fun x => x) h raw

/-- The shared store helper `s`: effective address `gpr[rs1] + s_imm`, value
converted from `gpr[rs2]`; both bus error categories are translated into
StoreAmoAccessFault with the address as trap value (the source maps
`AddressMisaligned` to `StoreAmoAccessFault` as well). -/
def sInstr (store : B → Nat → Nat → Except BusError B) (convert : Nat → Nat)
    (h : Hart B) (raw : Nat) : Hart B :=
  let address := (h.gpr (rs1Of raw) + s_imm64 raw) % pow64
  let value := convert (h.gpr (rs2Of raw))
  match store h.bus address value with
  | .ok bus => { h with bus := bus }
  | .error .AccessFault => trap h .StoreAmoAccessFault address
  | .error .AddressMisaligned => trap h .StoreAmoAccessFault address

/-- The `sb` handler: 8-bit store of `gpr[rs2] as u8`. -/
def sb (ops : BusOps B) (h : Hart B) (raw : Nat) : Hart B :=
  sInstr ops.store8 (fun r => r % 2 ^ 8) h raw

/-- The `sh` handler: 16-bit store of `gpr[rs2] as u16`. -/
def sh (ops : BusOps B) (h : Hart B) (raw : Nat) : Hart B :=
  sInstr ops.store16 (fun r => r % 2 ^ 16) h raw

/-- The `sw` handler: 32-bit store of `gpr[rs2] as u32`. -/
def sw (ops : BusOps B) (h : Hart B) (raw : Nat) : Hart B :=
  sInstr ops.store32 (fun r => r % pow32) h raw

/-- The `sd` handler: 64-bit store of `gpr[rs2]`. -/
def sd (ops : BusOps B) (h : Hart B) (raw : Nat) : Hart B :=
  sInstr ops.store64 (fun r => r) h raw

/-- The `addi` handler: `gpr[rd] = gpr[rs1].wrapping_add(i_imm as u64)`. -/
def addi (_ops : BusOps B) (h : Hart B) (raw : Nat) : Hart B :=
  { h with gpr := gprWrite h.gpr (rdOf raw) ((h.gpr (rs1Of raw) + i_imm64 raw) % pow64) }

/-- The `addiw` handler: 32-bit wrapping add of `gpr[rs1] as u32` and
`i_imm as u32`, then `as i32 as u64`. -/
def addiw (_ops : BusOps B) (h : Hart B) (raw : Nat) : Hart B :=
  { h with gpr := gprWrite h.gpr (rdOf raw)
               (sext32to64 ((h.gpr (rs1Of raw) % pow32 + i_imm32 raw) % pow32)) }

/-- The `slti` handler: signed comparison against the I-immediate. -/
def slti (_ops : BusOps B) (h : Hart B) (raw : Nat) : Hart B :=
  { h with gpr := gprWrite h.gpr (rdOf raw)
               (if toI64 (h.gpr (rs1Of raw)) < toI64 (i_imm64 raw) then 1 else 0) }

/-- The `sltiu` handler: unsigned comparison against `i_imm as u64`. -/
def sltiu (_ops : BusOps B) (h : Hart B) (raw : Nat) : Hart B :=
  { h with gpr := gprWrite h.gpr (rdOf raw)
               (if h.gpr (rs1Of raw) < i_imm64 raw then 1 else 0) }

/-- The `xori` handler. -/
def xori (_ops : BusOps B) (h : Hart B) (raw : Nat) : Hart B :=
  { h with gpr := gprWrite h.gpr (rdOf raw) (h.gpr (rs1Of raw) ^^^ i_imm64 raw) }

/-- The `ori` handler. -/
def ori (_ops : BusOps B) (h : Hart B) (raw : Nat) : Hart B :=
  { h with gpr := gprWrite h.gpr (rdOf raw) (h.gpr (rs1Of raw) ||| i_imm64 raw) }

/-- The `andi` handler. -/
def andi (_ops : BusOps B) (h : Hart B) (raw : Nat) : Hart B :=
  { h with gpr := gprWrite h.gpr (rdOf raw) (h.gpr (rs1Of raw) &&& i_imm64 raw) }

/-- The `slli` handler: `gpr[rs1].wrapping_shl(shamt)` (the shift amount is
masked to 6 bits by `wrapping_shl`). -/
def slli (_ops : BusOps B) (h : Hart B) (raw : Nat) : Hart B :=
  { h with gpr := gprWrite h.gpr (rdOf raw)
               ((h.gpr (rs1Of raw) <<< (shamtOf raw % 64)) % pow64) }

/-- The `srxi` handler: SRLI (logical) or SRAI (arithmetic), selected by raw
bit 30. -/
def srxi (_ops : BusOps B) (h : Hart B) (raw : Nat) : Hart B :=
  if raw &&& (1 <<< 30) = 0 then
    { h with gpr := gprWrite h.gpr (rdOf raw) (h.gpr (rs1Of raw) >>> (shamtOf raw % 64)) }
  else
    { h with gpr := gprWrite h.gpr (rdOf raw) (sar64 (h.gpr (rs1Of raw)) (shamtOf raw % 64)) }

/-- The `slliw` handler: `(gpr[rs1] as i32).wrapping_shl(shamt) as u64` (the
shift is masked to 5 bits by the 32-bit `wrapping_shl`). -/
def slliw (_ops : BusOps B) (h : Hart B) (raw : Nat) : Hart B :=
  { h with gpr := gprWrite h.gpr (rdOf raw)
               (sext32to64 ((h.gpr (rs1Of raw) % pow32 <<< (shamtOf raw % 32)) % pow32)) }

/-- The `srxiw` handler: SRLIW or SRAIW on the low 32 bits, selected by raw
bit 30, result sign-extended. -/
def srxiw (_ops : BusOps B) (h : Hart B) (raw : Nat) : Hart B :=
  if raw &&& (1 <<< 30) = 0 then
    { h with gpr := gprWrite h.gpr (rdOf raw)
                 (sext32to64 (h.gpr (rs1Of raw) % pow32 >>> (shamtOf raw % 32))) }
  else
    { h with gpr := gprWrite h.gpr (rdOf raw)
                 (sext32to64 (ashr32 (h.gpr (rs1Of raw) % pow32) (shamtOf raw % 32))) }

/-- The `add_sub` handler: ADD or SUB selected by raw bit 30. -/
def add_sub (_ops : BusOps B) (h : Hart B) (raw : Nat) : Hart B :=
  if raw &&& (1 <<< 30) = 0 then
    { h with gpr := gprWrite h.gpr (rdOf raw)
                 ((h.gpr (rs1Of raw) + h.gpr (rs2Of raw)) % pow64) }
  else
    { h with gpr := gprWrite h.gpr (rdOf raw)
                 (wsub64 (h.gpr (rs1Of raw)) (h.gpr (rs2Of raw))) }

/-- The `addw_subw` handler: ADDW or SUBW on the low 32 bits, sign-extended,
selected by raw bit 30. -/
def addw_subw (_ops : BusOps B) (h : Hart B) (raw : Nat) : Hart B :=
  if raw &&& (1 <<< 30) = 0 then
    { h with gpr := gprWrite h.gpr (rdOf raw)
                 (sext32to64 ((h.gpr (rs1Of raw) % pow32 + h.gpr (rs2Of raw) % pow32) % pow32)) }
  else
    { h with gpr := gprWrite h.gpr (rdOf raw)
                 (sext32to64 ((h.gpr (rs1Of raw) % pow32 +
          (pow32 - h.gpr (rs2Of raw) % pow32)) % pow32)) }

/-- The `sll` handler: `gpr[rs1].wrapping_shl(gpr[rs2] as u32)` (shift masked
to 6 bits). -/
def sll (_ops : BusOps B) (h : Hart B) (raw : Nat) : Hart B :=
  { h with gpr := gprWrite h.gpr (rdOf raw)
               ((h.gpr (rs1Of raw) <<< (h.gpr (rs2Of raw) % pow32 % 64)) % pow64) }

/-- The `slt` handler: signed comparison. -/
def slt (_ops : BusOps B) (h : Hart B) (raw : Nat) : Hart B :=
  { h with gpr := gprWrite h.gpr (rdOf raw)
               (if toI64 (h.gpr (rs1Of raw)) < toI64 (h.gpr (rs2Of raw)) then 1 else 0) }

/-- The `sltu` handler: unsigned comparison. -/
def sltu (_ops : BusOps B) (h : Hart B) (raw : Nat) : Hart B :=
  { h with gpr := gprWrite h.gpr (rdOf raw)
               (if h.gpr (rs1Of raw) < h.gpr (rs2Of raw) then 1 else 0) }

/-- The `xor` handler. -/
def xorInstr (_ops : BusOps B) (h : Hart B) (raw : Nat) : Hart B :=
  { h with gpr := gprWrite h.gpr (rdOf raw) (h.gpr (rs1Of raw) ^^^ h.gpr (rs2Of raw)) }

/-- The `srx` handler: SRL or SRA selected by raw bit 30 (shift
`gpr[rs2] as u32`, masked to 6 bits). -/
def srx (_ops : BusOps B) (h : Hart B) (raw : Nat) : Hart B :=
  if raw &&& (1 <<< 30) = 0 then
    { h with gpr := gprWrite h.gpr (rdOf raw)
                 (h.gpr (rs1Of raw) >>> (h.gpr (rs2Of raw) % pow32 % 64)) }
  else
    { h with gpr := gprWrite h.gpr (rdOf raw)
                 (sar64 (h.gpr (rs1Of raw)) (h.gpr (rs2Of raw) % pow32 % 64)) }

/-- The `or` handler. -/
def orInstr (_ops : BusOps B) (h : Hart B) (raw : Nat) : Hart B :=
  { h with gpr := gprWrite h.gpr (rdOf raw) (h.gpr (rs1Of raw) ||| h.gpr (rs2Of raw)) }

/-- The `and` handler. -/
def andInstr (_ops : BusOps B) (h : Hart B) (raw : Nat) : Hart B :=
  { h with gpr := gprWrite h.gpr (rdOf raw) (h.gpr (rs1Of raw) &&& h.gpr (rs2Of raw)) }

/-- The `sllw` handler: 32-bit shift left, sign-extended (shift masked to 5
bits). -/
def sllw (_ops : BusOps B) (h : Hart B) (raw : Nat) : Hart B :=
  { h with gpr := gprWrite h.gpr (rdOf raw)
               (sext32to64 ((h.gpr (rs1Of raw) % pow32 <<< (h.gpr (rs2Of raw) % pow32 % 32)) % pow32)) }

/-- The `srxw` handler: SRLW or SRAW on the low 32 bits, sign-extended,
selected by raw bit 30. -/
def srxw (_ops : BusOps B) (h : Hart B) (raw : Nat) : Hart B :=
  if raw &&& (1 <<< 30) = 0 then
    { h with gpr := gprWrite h.gpr (rdOf raw)
                 (sext32to64 (h.gpr (rs1Of raw) % pow32 >>> (h.gpr (rs2Of raw) % pow32 % 32))) }
  else
    { h with gpr := gprWrite h.gpr (rdOf raw)
                 (sext32to64 (ashr32 (h.gpr (rs1Of raw) % pow32) (h.gpr (rs2Of raw) % pow32 % 32))) }

/-- The `fence` handler: a no-op. -/
def fence (_ops : BusOps B) (h : Hart B) (_raw : Nat) : Hart B := h

/-- The `ecall_ebreak` handler: ECALL raises the environment-call cause for
the current privilege, EBREAK (raw bit 20 set) raises Breakpoint; the trap
value is empty (zero). -/
def ecall_ebreak (_ops : BusOps B) (h : Hart B) (raw : Nat) : Hart B :=
  let cause :=
    if raw &&& (1 <<< 20) = 0 then
      match h.privilege with
      | .Machine => TrapCause.EnvironmentCallFromMMode
      | .Supervisor => TrapCause.EnvironmentCallFromSMode
      | .User => TrapCause.EnvironmentCallFromUMode
    else
      TrapCause.Breakpoint
  trap h cause 0

/-- The `csrrw` handler: reject read-only or insufficient-privilege
addresses, save `gpr[rs1]`, replace the CSR with it, and write the value
returned by the CSR access to `rd`; an invalid CSR raises
IllegalInstruction with `raw` as trap value. -/
def csrrw (_ops : BusOps B) (h : Hart B) (raw : Nat) : Hart B :=
  let address := csrOf raw
  if is_read_only address || !is_sufficient_privilege address h.privilege then
    trap h .IllegalInstruction raw
  else
    let initial_rs1 := h.gpr (rs1Of raw)
    match hartCsr h address (fun _ => initial_rs1) with
    | some (h, value) => { h with gpr := gprWrite h.gpr (rdOf raw) value }
    | none => trap h .IllegalInstruction raw

/-- The `csrrs` handler: read-only addresses are rejected only when
`rs1 ≠ x0`; the CSR update function sets the bits of `gpr[rs1]`. -/
def csrrs (_ops : BusOps B) (h : Hart B) (raw : Nat) : Hart B :=
  let address := csrOf raw
  if !is_sufficient_privilege address h.privilege ||
      (rs1Of raw != 0 && is_read_only address) then
    trap h .IllegalInstruction raw
  else
    let initial_rs1 := h.gpr (rs1Of raw)
    match hartCsr h address (fun value => value ||| initial_rs1) with
    | some (h, value) => { h with gpr := gprWrite h.gpr (rdOf raw) value }
    | none => trap h .IllegalInstruction raw

/-- The `csrrc` handler: like `csrrs` but the update function clears the
bits of `gpr[rs1]` (`value & !initial_rs1`). -/
def csrrc (_ops : BusOps B) (h : Hart B) (raw : Nat) : Hart B :=
  let address := csrOf raw
  if !is_sufficient_privilege address h.privilege ||
      (rs1Of raw != 0 && is_read_only address) then
    trap h .IllegalInstruction raw
  else
    let initial_rs1 := h.gpr (rs1Of raw)
    match hartCsr h address (fun value => value &&& not64 initial_rs1) with
    | some (h, value) => { h with gpr := gprWrite h.gpr (rdOf raw) value }
    | none => trap h .IllegalInstruction raw

/-- The `csrrwi` handler: like `csrrw` with the `uimm` field as operand. -/
def csrrwi (_ops : BusOps B) (h : Hart B) (raw : Nat) : Hart B :=
  let address := csrOf raw
  if is_read_only address || !is_sufficient_privilege address h.privilege then
    trap h .IllegalInstruction raw
  else
    match hartCsr h address (fun _ => uimmOf raw) with
    | some (h, value) => { h with gpr := gprWrite h.gpr (rdOf raw) value }
    | none => trap h .IllegalInstruction raw

/-- The `csrrsi` handler: read-only addresses are rejected only when
`uimm ≠ 0`; the update function sets the `uimm` bits. -/
def csrrsi (_ops : BusOps B) (h : Hart B) (raw : Nat) : Hart B :=
  let address := csrOf raw
  if !is_sufficient_privilege address h.privilege ||
      (uimmOf raw != 0 && is_read_only address) then
    trap h .IllegalInstruction raw
  else
    match hartCsr h address (fun value => value ||| uimmOf raw) with
    | some (h, value) => { h with gpr := gprWrite h.gpr (rdOf raw) value }
    | none => trap h .IllegalInstruction raw

/-- The `csrrci` handler: like `csrrsi` but the update function clears the
`uimm` bits. -/
def csrrci (_ops : BusOps B) (h : Hart B) (raw : Nat) : Hart B :=
  let address := csrOf raw
  if !is_sufficient_privilege address h.privilege ||
      (uimmOf raw != 0 && is_read_only address) then
    trap h .IllegalInstruction raw
  else
    match hartCsr h address (fun value => value &&& not64 (uimmOf raw)) with
    | some (h, value) => { h with gpr := gprWrite h.gpr (rdOf raw) value }
    | none => trap h .IllegalInstruction raw

/-- The default match arm of `Hart::execute`: raise IllegalInstruction with
`raw` as trap value. -/
def illegalInstr (_ops : BusOps B) (h : Hart B) (raw : Nat) : Hart B :=
  trap h .IllegalInstruction raw

/-- The opcode/funct3 selector computed in `Hart::execute`:
`raw & 0b1111111 | raw >> 5 & 0b111 << 7`. -/
def funct3Opcode (raw : Nat) : Nat :=
  raw &&& 0b1111111 ||| (raw >>> 5 &&& (0b111 <<< 7))

/-- The instruction-selection match of `Hart::execute`, mapping the
opcode/funct3 selector `k` to a handler (LUI/AUIPC/JAL accept every funct3
value, hence the eight alternatives each). -/
def decode (k : Nat) : BusOps B → Hart B → Nat → Hart B :=
  match k with
  | 0b0000110111 | 0b0010110111 | 0b0100110111 | 0b0110110111
  | 0b1000110111 | 0b1010110111 | 0b1100110111 | 0b1110110111 => lui
  | 0b0000010111 | 0b0010010111 | 0b0100010111 | 0b0110010111
  | 0b1000010111 | 0b1010010111 | 0b1100010111 | 0b1110010111 => auipc
  | 0b0001101111 | 0b0011101111 | 0b0101101111 | 0b0111101111
  | 0b1001101111 | 0b1011101111 | 0b1101101111 | 0b1111101111 => jal
  | 0b0001100111 => jalr
  | 0b0001100011 => beq
  | 0b0011100011 => bne
  | 0b1001100011 => blt
  | 0b1011100011 => bge
  | 0b1101100011 => bltu
  | 0b1111100011 => bgeu
  | 0b0000000011 => lb
  | 0b0010000011 => lh
  | 0b0100000011 => lw
  | 0b0110000011 => ld
  | 0b1000000011 => lbu
  | 0b1010000011 => lhu
  | 0b1100000011 => lwu
  | 0b0000100011 => sb
  | 0b0010100011 => sh
  | 0b0100100011 => sw
  | 0b0110100011 => sd
  | 0b0000010011 => addi
  | 0b0000011011 => addiw
  | 0b0100010011 => slti
  | 0b0110010011 => sltiu
  | 0b1000010011 => xori
  | 0b1100010011 => ori
  | 0b1110010011 => andi
  | 0b0010010011 => slli
  | 0b1010010011 => srxi
  | 0b0010011011 => slliw
  | 0b1010011011 => srxiw
  | 0b0000110011 => add_sub
  | 0b0000111011 => addw_subw
  | 0b0010110011 => sll
  | 0b0100110011 => slt
  | 0b0110110011 => sltu
  | 0b1000110011 => xorInstr
  | 0b1010110011 => srx
  | 0b1100110011 => orInstr
  | 0b1110110011 => andInstr
  | 0b0010111011 => sllw
  | 0b1010111011 => srxw
  | 0b0000001111 => fence
  | 0b0001110011 => ecall_ebreak
  | 0b0011110011 => csrrw
  | 0b0101110011 => csrrs
  | 0b0111110011 => csrrc
  | 0b1011110011 => csrrwi
  | 0b1101110011 => csrrsi
  | 0b1111110011 => csrrci
  | _ => illegalInstr

/-- The `Hart::execute` step of `src/hart.rs`: fetch a 32-bit word at `pc`
(translating bus errors into fetch traps and returning early, without the
`pc ← next` commit), clear `gpr[0]`, set `next ← pc + 4`, run the decoded
handler, and commit `pc ← next`.  The ghost `raised` latch is cleared at the
top of the step. -/
def execute (ops : BusOps B) (h : Hart B) : Hart B :=
  let h := { h with raised := none }
  match ops.load32 h.bus h.pc with
  | .error .AccessFault => trap h .InstructionAccessFault h.pc
  | .error .AddressMisaligned => trap h .InstructionAddressMisaligned h.pc
  | .ok raw =>
    let h := { h with gpr := gprWrite h.gpr 0 0, next := (h.pc + 4) % pow64 }
    let h := decode (funct3Opcode raw) ops h raw
    { h with pc := h.next }

/-- The `Memory::calculate_destination` routine of `src/memory.rs` for an
access of width `w` bytes into a buffer of `size` bytes:
`upper = address.wrapping_add(w)`; in-bounds means `address < upper` (no
wraparound) and `upper <= size`; out-of-bounds is AccessFault.  The source
then checks host-pointer alignment, `ptr as usize % align_of::<T>() == 0`;
since the buffer base comes from a `[u64]` slice (8-byte aligned) and the
alignment of each access type divides 8, that condition equals
`address % w == 0`.  On success the checked address is returned. -/
def calculate_destination (size w address : Nat) : Except BusError Nat :=
  let upper := (address + w) % pow64
  if address < upper ∧ upper ≤ size then
    if address % w = 0 then .ok address else .error .AddressMisaligned
  else
    .error .AccessFault

/-- Little-endian read of `w` bytes starting at index `a` of a byte
buffer (the `Ok(unsafe { *ptr })` of a typed load on a little-endian
host). -/
def readLE (data : List Nat) (a : Nat) : Nat → Nat
  | 0 => 0
  | n + 1 => data.getD a 0 + 2 ^ 8 * readLE data (a + 1) n

/-- Little-endian write of the low `w` bytes of `v` starting at index `a`
of a byte buffer (the `Ok(unsafe { *ptr = value })` of a typed store on a
little-endian host). -/
def writeLE (data : List Nat) (a v : Nat) : Nat → List Nat
  | 0 => data
  | n + 1 => writeLE (data.set a (v % 2 ^ 8)) (a + 1) (v / 2 ^ 8) n

/-- A `Bus::load` of width `w` bytes on the `Memory` back-end.  The guard
`address as usize as u64 == address` of `impl_bus` always holds on the
64-bit host, so it does not appear; callers quantify over `address < 2^64`
as the `u64` type guarantees. -/
def memLoad (w : Nat) (data : List Nat) (address : Nat) : Except BusError Nat :=
  match calculate_destination data.length w address with
  | .ok a => .ok (readLE data a w)
  | .error e => .error e

/-- A `Bus::store` of width `w` bytes on the `Memory` back-end, returning
the resulting buffer and the error, if any (the failing paths of the source
perform no write, so they return the buffer unchanged). -/
def memStore (w : Nat) (data : List Nat) (address value : Nat) :
    List Nat × Option BusError :=
  match calculate_destination data.length w address with
  | .ok a => (writeLE data a value w, none)
  | .error e => (data, some e)

/-- Masking with 3 is reduction modulo 4 (the `& 0b11` alignment test). -/
theorem and_three_eq_mod (x : Nat) : x &&& 3 = x % 4 := by
  simpa using Nat.and_pow_two_sub_one_eq_mod x 2

/-- A trap vector base (`value & !0b11`) is always 4-byte aligned. -/
theorem tvecBase_aligned (x : Nat) : tvecBase x &&& 3 = 0 := by
  rw [tvecBase, Nat.and_assoc]
  have h4 : pow64 - 4 &&& 3 = 0 := by decide
  rw [h4, Nat.and_zero]

/-- The sequential next address `pc + 4` (wrapping) stays 4-byte aligned. -/
theorem next4_aligned {x : Nat} (hx : x &&& 3 = 0) : (x + 4) % pow64 &&& 3 = 0 := by
  rw [and_three_eq_mod] at hx ⊢
  rw [Nat.mod_mod_of_dvd _ (by norm_num [pow64])]
  omega

/-- Delegation decision of `Hart::trap` as a single boolean: the trap goes to
supervisor mode exactly when the pre-trap privilege is User or Supervisor and
`medeleg` or `mideleg` has the corresponding bit set. -/
def trapsToSupervisor (h : Hart B) (c : TrapCause) : Bool :=
  (h.privilege == .User || h.privilege == .Supervisor) &&
    (isDelegated h.csr.medeleg c || isDelegated h.csr.mideleg c)

theorem handleTrapMachine_pc (h : Hart B) (c : TrapCause) (v : Nat) :
    (handleTrapMachine h c v).pc = h.pc := by
  rw [handleTrapMachine]; dsimp only; split <;> rfl

theorem handleTrapMachine_privilege (h : Hart B) (c : TrapCause) (v : Nat) :
    (handleTrapMachine h c v).privilege = h.privilege := by
  rw [handleTrapMachine]; dsimp only; split <;> rfl

theorem handleTrapMachine_raised (h : Hart B) (c : TrapCause) (v : Nat) :
    (handleTrapMachine h c v).raised = h.raised := by
  rw [handleTrapMachine]; dsimp only; split <;> rfl

theorem handleTrapMachine_mideleg (h : Hart B) (c : TrapCause) (v : Nat) :
    (handleTrapMachine h c v).csr.mideleg = h.csr.mideleg := by
  rw [handleTrapMachine]; dsimp only; split <;> rfl

theorem handleTrapMachine_next (h : Hart B) (c : TrapCause) (v : Nat) :
    (handleTrapMachine h c v).next =
      if tvecMode h.csr.mtvec = 0 then tvecBase h.csr.mtvec else h.next := by
  rw [handleTrapMachine]; dsimp only; split <;> rfl

theorem handleTrapSupervisor_pc (h : Hart B) (c : TrapCause) (v : Nat) :
    (handleTrapSupervisor h c v).pc = h.pc := by
  rw [handleTrapSupervisor]; dsimp only; split <;> rfl

theorem handleTrapSupervisor_privilege (h : Hart B) (c : TrapCause) (v : Nat) :
    (handleTrapSupervisor h c v).privilege = h.privilege := by
  rw [handleTrapSupervisor]; dsimp only; split <;> rfl

theorem handleTrapSupervisor_raised (h : Hart B) (c : TrapCause) (v : Nat) :
    (handleTrapSupervisor h c v).raised = h.raised := by
  rw [handleTrapSupervisor]; dsimp only; split <;> rfl

theorem handleTrapSupervisor_mideleg (h : Hart B) (c : TrapCause) (v : Nat) :
    (handleTrapSupervisor h c v).csr.mideleg = h.csr.mideleg := by
  rw [handleTrapSupervisor]; dsimp only; split <;> rfl

theorem handleTrapSupervisor_next (h : Hart B) (c : TrapCause) (v : Nat) :
    (handleTrapSupervisor h c v).next =
      if tvecMode h.csr.stvec = 0 then tvecBase h.csr.stvec else h.next := by
  rw [handleTrapSupervisor]; dsimp only; split <;> rfl

/-- A privilege field update writing the value the field already holds is a
no-op. -/
theorem hart_privilege_update_self (h : Hart B) (p : PrivilegeLevel)
    (hp : h.privilege = p) : { h with privilege := p } = h := by
  cases h; cases hp; rfl

/-- Characterisation of `Hart::trap`: the result is the supervisor handler
exactly under `trapsToSupervisor`, otherwise the machine handler with the
privilege dropped to Machine; the ghost latch records the cause in both
cases. -/
theorem trap_eq (h : Hart B) (c : TrapCause) (v : Nat) :
    trap h c v =
      if trapsToSupervisor h c then
        handleTrapSupervisor { h with raised := some c, privilege := .Supervisor } c v
      else
        handleTrapMachine { h with raised := some c, privilege := .Machine } c v := by
  obtain ⟨priv, bus, pc, next, gpr, csr, raised⟩ := h
  cases priv <;>
    by_cases hd : (isDelegated csr.medeleg c || isDelegated csr.mideleg c) = true <;>
    simp [trap, trapsToSupervisor, hd]

theorem trap_raised (h : Hart B) (c : TrapCause) (v : Nat) :
    (trap h c v).raised = some c := by
  rw [trap_eq]
  split
  · rw [handleTrapSupervisor_raised]
  · rw [handleTrapMachine_raised]

theorem trap_pc (h : Hart B) (c : TrapCause) (v : Nat) :
    (trap h c v).pc = h.pc := by
  rw [trap_eq]
  split
  · rw [handleTrapSupervisor_pc]
  · rw [handleTrapMachine_pc]

theorem trap_mideleg (h : Hart B) (c : TrapCause) (v : Nat) :
    (trap h c v).csr.mideleg = h.csr.mideleg := by
  rw [trap_eq]
  split
  · rw [handleTrapSupervisor_mideleg]
  · rw [handleTrapMachine_mideleg]

/-- A trap never commits a misaligned `next`: it either redirects to an
always-aligned trap vector base or leaves `next` alone. -/
theorem trap_next_aligned (h : Hart B) (c : TrapCause) (v : Nat)
    (hn : h.next &&& 3 = 0) : (trap h c v).next &&& 3 = 0 := by
  rw [trap_eq]
  split
  · rw [handleTrapSupervisor_next]
    split
    · exact tvecBase_aligned _
    · exact hn
  · rw [handleTrapMachine_next]
    split
    · exact tvecBase_aligned _
    · exact hn

/-- The pre-trap hart state `h0` passed to `trap` by a handler invoked on
`h` agrees with `h` on every component that the trap transition consults. -/
def TrapFrame (h h0 : Hart B) : Prop :=
  h0.privilege = h.privilege ∧ h0.csr.medeleg = h.csr.medeleg ∧
    h0.csr.mideleg = h.csr.mideleg ∧ h0.csr.stvec = h.csr.stvec ∧
    h0.csr.mtvec = h.csr.mtvec ∧ h0.pc = h.pc ∧ h0.raised = h.raised ∧
    (h.next &&& 3 = 0 → h0.next &&& 3 = 0)

theorem TrapFrame.refl (h : Hart B) : TrapFrame h h :=
  ⟨rfl, rfl, rfl, rfl, rfl, rfl, rfl, fun a => a⟩

/-- The per-handler step contract: a handler preserves `mideleg`, preserves
4-byte alignment of `next`, and either leaves the trap latch alone or is a
`trap` call on a state agreeing with the entry state on the trap-relevant
components, with an exception (non-interrupt) cause. -/
def HSpec (h h' : Hart B) : Prop :=
  h'.csr.mideleg = h.csr.mideleg ∧
    (h.next &&& 3 = 0 → h'.next &&& 3 = 0) ∧
    (h'.raised = h.raised ∨
      ∃ c v h0, c.isInterrupt = false ∧ TrapFrame h h0 ∧ h' = trap h0 c v)

theorem HSpec.ofFields {h h' : Hart B} (m : h'.csr.mideleg = h.csr.mideleg)
    (n : h'.next = h.next) (r : h'.raised = h.raised) : HSpec h h' :=
  ⟨m, fun a => n ▸ a, .inl r⟩

theorem HSpec.ofTrap (h h0 : Hart B) (c : TrapCause) (v : Nat)
    (hc : c.isInterrupt = false) (fr : TrapFrame h h0) : HSpec h (trap h0 c v) := by
  refine ⟨?_, ?_, .inr ⟨c, v, h0, hc, fr, rfl⟩⟩
  · rw [trap_mideleg]
    exact fr.2.2.1
  · intro ha
    exact trap_next_aligned _ _ _ (fr.2.2.2.2.2.2.2 ha)

theorem lui_hspec (ops : BusOps B) (h : Hart B) (raw : Nat) :
    HSpec h (lui ops h raw) :=
  HSpec.ofFields rfl rfl rfl

theorem auipc_hspec (ops : BusOps B) (h : Hart B) (raw : Nat) :
    HSpec h (auipc ops h raw) :=
  HSpec.ofFields rfl rfl rfl

theorem jal_hspec (ops : BusOps B) (h : Hart B) (raw : Nat) :
    HSpec h (jal ops h raw) := by
  rw [jal]
  dsimp only
  split
  · exact ⟨rfl, fun _ => by assumption, .inl rfl⟩
  · exact HSpec.ofTrap h _ _ _ rfl ⟨rfl, rfl, rfl, rfl, rfl, rfl, rfl, fun a => a⟩

theorem jalr_hspec (ops : BusOps B) (h : Hart B) (raw : Nat) :
    HSpec h (jalr ops h raw) := by
  rw [jalr]
  dsimp only
  split
  · exact ⟨rfl, fun _ => by assumption, .inl rfl⟩
  · exact HSpec.ofTrap h _ _ _ rfl ⟨rfl, rfl, rfl, rfl, rfl, rfl, rfl, fun a => a⟩

theorem branchInstr_hspec (h : Hart B) (raw : Nat) (condition : Bool) :
    HSpec h (branchInstr h raw condition) := by
  rw [branchInstr]
  split
  · split
    · exact ⟨rfl, fun _ => by assumption, .inl rfl⟩
    · exact HSpec.ofTrap h _ _ _ rfl (TrapFrame.refl h)
  · exact HSpec.ofFields rfl rfl rfl

theorem beq_hspec (ops : BusOps B) (h : Hart B) (raw : Nat) :
    HSpec h (beq ops h raw) :=
  branchInstr_hspec h raw _

theorem bne_hspec (ops : BusOps B) (h : Hart B) (raw : Nat) :
    HSpec h (bne ops h raw) :=
  branchInstr_hspec h raw _

theorem blt_hspec (ops : BusOps B) (h : Hart B) (raw : Nat) :
    HSpec h (blt ops h raw) :=
  branchInstr_hspec h raw _

theorem bge_hspec (ops : BusOps B) (h : Hart B) (raw : Nat) :
    HSpec h (bge ops h raw) :=
  branchInstr_hspec h raw _

theorem bltu_hspec (ops : BusOps B) (h : Hart B) (raw : Nat) :
    HSpec h (bltu ops h raw) :=
  branchInstr_hspec h raw _

theorem bgeu_hspec (ops : BusOps B) (h : Hart B) (raw : Nat) :
    HSpec h (bgeu ops h raw) :=
  branchInstr_hspec h raw _

theorem lInstr_hspec (load : B → Nat → Except BusError Nat) (convert : Nat → Nat)
    (h : Hart B) (raw : Nat) : HSpec h (lInstr load convert h raw) := by
  rw [lInstr]
  split
  · exact HSpec.ofFields rfl rfl rfl
  · exact HSpec.ofTrap h _ _ _ rfl (TrapFrame.refl h)
  · exact HSpec.ofTrap h _ _ _ rfl (TrapFrame.refl h)

theorem lb_hspec (ops : BusOps B) (h : Hart B) (raw : Nat) :
    HSpec h (lb ops h raw) :=
  lInstr_hspec _ _ h raw

theorem lh_hspec (ops : BusOps B) (h : Hart B) (raw : Nat) :
    HSpec h (lh ops h raw) :=
  lInstr_hspec _ _ h raw

theorem lw_hspec (ops : BusOps B) (h : Hart B) (raw : Nat) :
    HSpec h (lw ops h raw) :=
  lInstr_hspec _ _ h raw

theorem ld_hspec (ops : BusOps B) (h : Hart B) (raw : Nat) :
    HSpec h (ld ops h raw) :=
  lInstr_hspec _ _ h raw

theorem lbu_hspec (ops : BusOps B) (h : Hart B) (raw : Nat) :
    HSpec h (lbu ops h raw) :=
  lInstr_hspec _ _ h raw

theorem lhu_hspec (ops : BusOps B) (h : Hart B) (raw : Nat) :
    HSpec h (lhu ops h raw) :=
  lInstr_hspec _ _ h raw

theorem lwu_hspec (ops : BusOps B) (h : Hart B) (raw : Nat) :
    HSpec h (lwu ops h raw) :=
  lInstr_hspec _ _ h raw

theorem sInstr_hspec (store : B → Nat → Nat → Except BusError B) (convert : Nat → Nat)
    (h : Hart B) (raw : Nat) : HSpec h (sInstr store convert h raw) := by
  rw [sInstr]
  split
  · exact HSpec.ofFields rfl rfl rfl
  · exact HSpec.ofTrap h _ _ _ rfl (TrapFrame.refl h)
  · exact HSpec.ofTrap h _ _ _ rfl (TrapFrame.refl h)

theorem sb_hspec (ops : BusOps B) (h : Hart B) (raw : Nat) :
    HSpec h (sb ops h raw) :=
  sInstr_hspec _ _ h raw

theorem sh_hspec (ops : BusOps B) (h : Hart B) (raw : Nat) :
    HSpec h (sh ops h raw) :=
  sInstr_hspec _ _ h raw

theorem sw_hspec (ops : BusOps B) (h : Hart B) (raw : Nat) :
    HSpec h (sw ops h raw) :=
  sInstr_hspec _ _ h raw

theorem sd_hspec (ops : BusOps B) (h : Hart B) (raw : Nat) :
    HSpec h (sd ops h raw) :=
  sInstr_hspec _ _ h raw

theorem addi_hspec (ops : BusOps B) (h : Hart B) (raw : Nat) :
    HSpec h (addi ops h raw) :=
  HSpec.ofFields rfl rfl rfl

theorem addiw_hspec (ops : BusOps B) (h : Hart B) (raw : Nat) :
    HSpec h (addiw ops h raw) :=
  HSpec.ofFields rfl rfl rfl

theorem slti_hspec (ops : BusOps B) (h : Hart B) (raw : Nat) :
    HSpec h (slti ops h raw) :=
  HSpec.ofFields rfl rfl rfl

theorem sltiu_hspec (ops : BusOps B) (h : Hart B) (raw : Nat) :
    HSpec h (sltiu ops h raw) :=
  HSpec.ofFields rfl rfl rfl

theorem xori_hspec (ops : BusOps B) (h : Hart B) (raw : Nat) :
    HSpec h (xori ops h raw) :=
  HSpec.ofFields rfl rfl rfl

theorem ori_hspec (ops : BusOps B) (h : Hart B) (raw : Nat) :
    HSpec h (ori ops h raw) :=
  HSpec.ofFields rfl rfl rfl

theorem andi_hspec (ops : BusOps B) (h : Hart B) (raw : Nat) :
    HSpec h (andi ops h raw) :=
  HSpec.ofFields rfl rfl rfl

theorem slli_hspec (ops : BusOps B) (h : Hart B) (raw : Nat) :
    HSpec h (slli ops h raw) :=
  HSpec.ofFields rfl rfl rfl

theorem srxi_hspec (ops : BusOps B) (h : Hart B) (raw : Nat) :
    HSpec h (srxi ops h raw) := by
  rw [srxi]
  split <;> exact HSpec.ofFields rfl rfl rfl

theorem slliw_hspec (ops : BusOps B) (h : Hart B) (raw : Nat) :
    HSpec h (slliw ops h raw) :=
  HSpec.ofFields rfl rfl rfl

theorem srxiw_hspec (ops : BusOps B) (h : Hart B) (raw : Nat) :
    HSpec h (srxiw ops h raw) := by
  rw [srxiw]
  split <;> exact HSpec.ofFields rfl rfl rfl

theorem add_sub_hspec (ops : BusOps B) (h : Hart B) (raw : Nat) :
    HSpec h (add_sub ops h raw) := by
  rw [add_sub]
  split <;> exact HSpec.ofFields rfl rfl rfl

theorem addw_subw_hspec (ops : BusOps B) (h : Hart B) (raw : Nat) :
    HSpec h (addw_subw ops h raw) := by
  rw [addw_subw]
  split <;> exact HSpec.ofFields rfl rfl rfl

theorem sll_hspec (ops : BusOps B) (h : Hart B) (raw : Nat) :
    HSpec h (sll ops h raw) :=
  HSpec.ofFields rfl rfl rfl

theorem slt_hspec (ops : BusOps B) (h : Hart B) (raw : Nat) :
    HSpec h (slt ops h raw) :=
  HSpec.ofFields rfl rfl rfl

theorem sltu_hspec (ops : BusOps B) (h : Hart B) (raw : Nat) :
    HSpec h (sltu ops h raw) :=
  HSpec.ofFields rfl rfl rfl

theorem xorInstr_hspec (ops : BusOps B) (h : Hart B) (raw : Nat) :
    HSpec h (xorInstr ops h raw) :=
  HSpec.ofFields rfl rfl rfl

theorem srx_hspec (ops : BusOps B) (h : Hart B) (raw : Nat) :
    HSpec h (srx ops h raw) := by
  rw [srx]
  split <;> exact HSpec.ofFields rfl rfl rfl

theorem orInstr_hspec (ops : BusOps B) (h : Hart B) (raw : Nat) :
    HSpec h (orInstr ops h raw) :=
  HSpec.ofFields rfl rfl rfl

theorem andInstr_hspec (ops : BusOps B) (h : Hart B) (raw : Nat) :
    HSpec h (andInstr ops h raw) :=
  HSpec.ofFields rfl rfl rfl

theorem sllw_hspec (ops : BusOps B) (h : Hart B) (raw : Nat) :
    HSpec h (sllw ops h raw) :=
  HSpec.ofFields rfl rfl rfl

theorem srxw_hspec (ops : BusOps B) (h : Hart B) (raw : Nat) :
    HSpec h (srxw ops h raw) := by
  rw [srxw]
  split <;> exact HSpec.ofFields rfl rfl rfl

theorem fence_hspec (ops : BusOps B) (h : Hart B) (raw : Nat) :
    HSpec h (fence ops h raw) :=
  HSpec.ofFields rfl rfl rfl

theorem ecall_ebreak_hspec (ops : BusOps B) (h : Hart B) (raw : Nat) :
    HSpec h (ecall_ebreak ops h raw) := by
  rw [ecall_ebreak]
  refine HSpec.ofTrap h h _ 0 ?_ (TrapFrame.refl h)
  split
  · cases h.privilege <;> rfl
  · rfl

theorem illegalInstr_hspec (ops : BusOps B) (h : Hart B) (raw : Nat) :
    HSpec h (illegalInstr ops h raw) :=
  HSpec.ofTrap h h _ _ rfl (TrapFrame.refl h)

/-- The `Hart::csr` dispatcher only ever rewrites the CSR cell named by the
address; in particular `mideleg`, `next`, `pc`, `raised` and the privilege
level are untouched on success. -/
theorem hartCsr_frame {h h1 : Hart B} {address : Nat} {f : Nat → Nat} {value : Nat}
    (hh : hartCsr h address f = some (h1, value)) :
    h1.csr.mideleg = h.csr.mideleg ∧ h1.next = h.next ∧ h1.raised = h.raised := by
  unfold hartCsr at hh
  split at hh
  all_goals
    first
      | exact Option.noConfusion hh
      | · simp only [Option.some.injEq, Prod.mk.injEq] at hh
          obtain ⟨he, _⟩ := hh
          subst he
          exact ⟨rfl, rfl, rfl⟩

theorem csrrw_hspec (ops : BusOps B) (h : Hart B) (raw : Nat) :
    HSpec h (csrrw ops h raw) := by
  rw [csrrw]
  split
  · exact HSpec.ofTrap h h _ _ rfl (TrapFrame.refl h)
  · dsimp only
    split
    case _ h1 value heq =>
      obtain ⟨m, n, r⟩ := hartCsr_frame heq
      exact HSpec.ofFields m n r
    case _ heq =>
      exact HSpec.ofTrap h h _ _ rfl (TrapFrame.refl h)

theorem csrrs_hspec (ops : BusOps B) (h : Hart B) (raw : Nat) :
    HSpec h (csrrs ops h raw) := by
  rw [csrrs]
  split
  · exact HSpec.ofTrap h h _ _ rfl (TrapFrame.refl h)
  · dsimp only
    split
    case _ h1 value heq =>
      obtain ⟨m, n, r⟩ := hartCsr_frame heq
      exact HSpec.ofFields m n r
    case _ heq =>
      exact HSpec.ofTrap h h _ _ rfl (TrapFrame.refl h)

theorem csrrc_hspec (ops : BusOps B) (h : Hart B) (raw : Nat) :
    HSpec h (csrrc ops h raw) := by
  rw [csrrc]
  split
  · exact HSpec.ofTrap h h _ _ rfl (TrapFrame.refl h)
  · dsimp only
    split
    case _ h1 value heq =>
      obtain ⟨m, n, r⟩ := hartCsr_frame heq
      exact HSpec.ofFields m n r
    case _ heq =>
      exact HSpec.ofTrap h h _ _ rfl (TrapFrame.refl h)

theorem csrrwi_hspec (ops : BusOps B) (h : Hart B) (raw : Nat) :
    HSpec h (csrrwi ops h raw) := by
  rw [csrrwi]
  split
  · exact HSpec.ofTrap h h _ _ rfl (TrapFrame.refl h)
  · split
    case _ h1 value heq =>
      obtain ⟨m, n, r⟩ := hartCsr_frame heq
      exact HSpec.ofFields m n r
    case _ heq =>
      exact HSpec.ofTrap h h _ _ rfl (TrapFrame.refl h)

theorem csrrsi_hspec (ops : BusOps B) (h : Hart B) (raw : Nat) :
    HSpec h (csrrsi ops h raw) := by
  rw [csrrsi]
  split
  · exact HSpec.ofTrap h h _ _ rfl (TrapFrame.refl h)
  · split
    case _ h1 value heq =>
      obtain ⟨m, n, r⟩ := hartCsr_frame heq
      exact HSpec.ofFields m n r
    case _ heq =>
      exact HSpec.ofTrap h h _ _ rfl (TrapFrame.refl h)

theorem csrrci_hspec (ops : BusOps B) (h : Hart B) (raw : Nat) :
    HSpec h (csrrci ops h raw) := by
  rw [csrrci]
  split
  · exact HSpec.ofTrap h h _ _ rfl (TrapFrame.refl h)
  · split
    case _ h1 value heq =>
      obtain ⟨m, n, r⟩ := hartCsr_frame heq
      exact HSpec.ofFields m n r
    case _ heq =>
      exact HSpec.ofTrap h h _ _ rfl (TrapFrame.refl h)

set_option maxHeartbeats 1600000 in
/-- Every decoded handler satisfies the step contract. -/
theorem decode_hspec (k : Nat) (ops : BusOps B) (h : Hart B) (raw : Nat) :
    HSpec h (decode k ops h raw) := by
  unfold decode
  split <;>
    first
      | exact lui_hspec ops h raw
      | exact auipc_hspec ops h raw
      | exact jal_hspec ops h raw
      | exact jalr_hspec ops h raw
      | exact beq_hspec ops h raw
      | exact bne_hspec ops h raw
      | exact blt_hspec ops h raw
      | exact bge_hspec ops h raw
      | exact bltu_hspec ops h raw
      | exact bgeu_hspec ops h raw
      | exact lb_hspec ops h raw
      | exact lh_hspec ops h raw
      | exact lw_hspec ops h raw
      | exact ld_hspec ops h raw
      | exact lbu_hspec ops h raw
      | exact lhu_hspec ops h raw
      | exact lwu_hspec ops h raw
      | exact sb_hspec ops h raw
      | exact sh_hspec ops h raw
      | exact sw_hspec ops h raw
      | exact sd_hspec ops h raw
      | exact addi_hspec ops h raw
      | exact addiw_hspec ops h raw
      | exact slti_hspec ops h raw
      | exact sltiu_hspec ops h raw
      | exact xori_hspec ops h raw
      | exact ori_hspec ops h raw
      | exact andi_hspec ops h raw
      | exact slli_hspec ops h raw
      | exact srxi_hspec ops h raw
      | exact slliw_hspec ops h raw
      | exact srxiw_hspec ops h raw
      | exact add_sub_hspec ops h raw
      | exact addw_subw_hspec ops h raw
      | exact sll_hspec ops h raw
      | exact slt_hspec ops h raw
      | exact sltu_hspec ops h raw
      | exact xorInstr_hspec ops h raw
      | exact srx_hspec ops h raw
      | exact orInstr_hspec ops h raw
      | exact andInstr_hspec ops h raw
      | exact sllw_hspec ops h raw
      | exact srxw_hspec ops h raw
      | exact fence_hspec ops h raw
      | exact ecall_ebreak_hspec ops h raw
      | exact csrrw_hspec ops h raw
      | exact csrrs_hspec ops h raw
      | exact csrrc_hspec ops h raw
      | exact csrrwi_hspec ops h raw
      | exact csrrsi_hspec ops h raw
      | exact csrrci_hspec ops h raw
      | exact illegalInstr_hspec ops h raw

/-- The hart state right after a successful fetch: ghost latch cleared,
`gpr[0]` forced to zero, `next` set to the sequential `pc + 4`. -/
def preState (h : Hart B) : Hart B :=
  { h with raised := none, gpr := gprWrite h.gpr 0 0, next := (h.pc + 4) % pow64 }

theorem execute_ok (ops : BusOps B) (h : Hart B) (raw : Nat)
    (hl : ops.load32 h.bus h.pc = .ok raw) :
    execute ops h =
      { decode (funct3Opcode raw) ops (preState h) raw with
          pc := (decode (funct3Opcode raw) ops (preState h) raw).next } := by
  rw [execute]
  dsimp only
  rw [hl]
  rfl

theorem execute_err_access (ops : BusOps B) (h : Hart B)
    (hl : ops.load32 h.bus h.pc = .error .AccessFault) :
    execute ops h = trap { h with raised := none } .InstructionAccessFault h.pc := by
  rw [execute]
  dsimp only
  rw [hl]

theorem execute_err_misaligned (ops : BusOps B) (h : Hart B)
    (hl : ops.load32 h.bus h.pc = .error .AddressMisaligned) :
    execute ops h = trap { h with raised := none } .InstructionAddressMisaligned h.pc := by
  rw [execute]
  dsimp only
  rw [hl]

/-- No path of `execute` ever writes `mideleg`: the CSR dispatcher has no
`MIDELEG` arm and the trap transition writes only cause/epc/tval/next. -/
theorem execute_mideleg (ops : BusOps B) (h : Hart B) :
    (execute ops h).csr.mideleg = h.csr.mideleg := by
  cases hl : ops.load32 h.bus h.pc with
  | ok raw =>
    rw [execute_ok ops h raw hl]
    exact (decode_hspec (funct3Opcode raw) ops (preState h) raw).1
  | error e =>
    cases e
    · rw [execute_err_access ops h hl]
      exact trap_mideleg _ _ _
    · rw [execute_err_misaligned ops h hl]
      exact trap_mideleg _ _ _

/-- One step preserves 4-byte alignment of both `pc` and `next`. -/
theorem execute_align (ops : BusOps B) (h : Hart B)
    (hpc : h.pc &&& 3 = 0) (hnx : h.next &&& 3 = 0) :
    (execute ops h).pc &&& 3 = 0 ∧ (execute ops h).next &&& 3 = 0 := by
  cases hl : ops.load32 h.bus h.pc with
  | ok raw =>
    rw [execute_ok ops h raw hl]
    have hpre : (preState h).next &&& 3 = 0 := next4_aligned hpc
    have hd := (decode_hspec (funct3Opcode raw) ops (preState h) raw).2.1 hpre
    exact ⟨hd, hd⟩
  | error e =>
    cases e
    · rw [execute_err_access ops h hl]
      refine ⟨?_, trap_next_aligned _ _ _ hnx⟩
      rw [trap_pc]
      exact hpc
    · rw [execute_err_misaligned ops h hl]
      refine ⟨?_, trap_next_aligned _ _ _ hnx⟩
      rw [trap_pc]
      exact hpc

/-- Every cause recorded by a step is an exception: `execute` never raises
an interrupt cause. -/
theorem execute_raised_exception (ops : BusOps B) (h : Hart B) (c : TrapCause)
    (hr : (execute ops h).raised = some c) : c.isInterrupt = false := by
  cases hl : ops.load32 h.bus h.pc with
  | ok raw =>
    rw [execute_ok ops h raw hl] at hr
    rcases (decode_hspec (funct3Opcode raw) ops (preState h) raw).2.2 with hsame | ⟨c', v, h0, hc', _, he⟩
    · rw [hsame] at hr
      exact Option.noConfusion hr
    · rw [he, trap_raised] at hr
      cases hr
      exact hc'
  | error e =>
    cases e
    · rw [execute_err_access ops h hl, trap_raised] at hr
      cases hr
      rfl
    · rw [execute_err_misaligned ops h hl, trap_raised] at hr
      cases hr
      rfl

/-- The `next` value produced by a trap, phrased through the delegation
decision. -/
theorem trap_next (h : Hart B) (c : TrapCause) (v : Nat) :
    (trap h c v).next =
      if trapsToSupervisor h c then
        (if tvecMode h.csr.stvec = 0 then tvecBase h.csr.stvec else h.next)
      else
        (if tvecMode h.csr.mtvec = 0 then tvecBase h.csr.mtvec else h.next) := by
  rw [trap_eq]
  split
  · rw [handleTrapSupervisor_next]
  · rw [handleTrapMachine_next]

/-- The delegation decision only consults privilege, `medeleg` and
`mideleg`, so it is stable across a `TrapFrame`. -/
theorem trapsToSupervisor_congr {h h0 : Hart B} (c : TrapCause)
    (fr : TrapFrame h h0) : trapsToSupervisor h0 c = trapsToSupervisor h c := by
  rw [trapsToSupervisor, trapsToSupervisor, fr.1, fr.2.1, fr.2.2.1]

/-- Delegation bits are never consulted on a zero register. -/
theorem isDelegated_zero (c : TrapCause) : isDelegated 0 c = false := by
  simp [isDelegated]

/-- The shift-amount reductions of `wrapping_shr` are identities for small
cause codes. -/
theorem modmod_small {v : Nat} (hv : v < 64) : v % pow32 % 64 = v := by
  rw [Nat.mod_eq_of_lt (lt_of_lt_of_le hv (by norm_num [pow32])), Nat.mod_eq_of_lt hv]

/-- For exception causes the delegation check reads exactly the bit indexed
by the cause code (the `wrapping_shr` mask and the `as u32` truncation are
identities below 16). -/
theorem isDelegated_exception {c : TrapCause} (hc : c.isInterrupt = false)
    (m : Nat) : isDelegated m c = m.testBit c.val := by
  cases c <;>
    first
      | exact absurd hc (by decide)
      | · simp only [isDelegated, TrapCause.val]
          rw [modmod_small (by norm_num)]
          rw [Nat.and_comm]
          rfl

/-- The numeric value of `pow64`, for linear-arithmetic reasoning. -/
theorem pow64_val : pow64 = 18446744073709551616 := by norm_num [pow64]

/-- Characterisation of the bounds test of `calculate_destination`: with the
wrapping `upper` computation, passing the bounds check is exactly
`address + w ≤ size` computed without wraparound. -/
theorem calcDest_bounds {w address size : Nat} (h1 : 1 ≤ w) (h8 : w ≤ 8)
    (ha : address < pow64) (hs : size < pow64) :
    (address < (address + w) % pow64 ∧ (address + w) % pow64 ≤ size) ↔
      address + w ≤ size := by
  have h64 := pow64_val
  by_cases hbig : address + w < pow64
  · rw [Nat.mod_eq_of_lt hbig]
    omega
  · have hub : (address + w) % pow64 = address + w - pow64 := by
      rw [Nat.mod_eq_sub_mod (by omega), Nat.mod_eq_of_lt (by omega)]
    rw [hub]
    omega

/-- Full classification of `calculate_destination`: bounds first (AccessFault
takes precedence), then natural alignment. -/
theorem calculate_destination_spec (size w address : Nat) (h1 : 1 ≤ w) (h8 : w ≤ 8)
    (ha : address < pow64) (hs : size < pow64) :
    calculate_destination size w address =
      if address + w ≤ size then
        (if address % w = 0 then .ok address else .error .AddressMisaligned)
      else
        .error .AccessFault := by
  rw [calculate_destination]
  by_cases hb : address + w ≤ size
  · rw [if_pos ((calcDest_bounds h1 h8 ha hs).mpr hb), if_pos hb]
  · rw [if_neg (fun hcond => hb ((calcDest_bounds h1 h8 ha hs).mp hcond)), if_neg hb]

/-- Fixture: a bus over a trivial state whose every operation faults. -/
def busNull : BusOps Unit :=
  { load8 := fun _ _ => .error .AccessFault
    load16 := fun _ _ => .error .AccessFault
    load32 := fun _ _ => .error .AccessFault
    load64 := fun _ _ => .error .AccessFault
    store8 := fun _ _ _ => .error .AccessFault
    store16 := fun _ _ _ => .error .AccessFault
    store32 := fun _ _ _ => .error .AccessFault
    store64 := fun _ _ _ => .error .AccessFault }

/-- Fixture: a bus whose instruction fetch always yields
`ADDI x0, x1, 1` (encoding 0x00108013). -/
def busAddiX0 : BusOps Unit :=
  { busNull with load32 := fun _ _ => .ok 0x00108013 }

/-- Fixture: a hart with `x1 = 5` and `pc = 0`. -/
def hartX1Five : Hart Unit :=
  { Hart.new () with gpr := gprWrite (Hart.new ()).gpr 1 5 }

/-- Fixture for spec scenario F: `mscratch = 0xAA`, `x5 = 0x55`, machine
privilege. -/
def hartScenF : Hart Unit :=
  { Hart.new () with
      gpr := gprWrite (Hart.new ()).gpr 5 0x55
      csr := { (Hart.new ()).csr with mscratch := 0xAA } }

/-- Fixture: a bus whose instruction fetch always yields
`CSRRW x5, mscratch, x5` (encoding 0x340292F3). -/
def busCsrrwScratch : BusOps Unit :=
  { busNull with load32 := fun _ _ => .ok 0x340292F3 }

/-- Fixture: a bus delivering distinct values per access width, so the width
of an issued load is observable (8-bit: 0xAA, 16-bit: 0xBBAA, 32-bit:
0xDDCCBBAA, 64-bit: wider). -/
def busWidths : BusOps Unit :=
  { busNull with
      load8 := fun _ _ => .ok 0xAA
      load16 := fun _ _ => .ok 0xBBAA
      load32 := fun _ _ => .ok 0xDDCCBBAA
      load64 := fun _ _ => .ok 0x1122334455667788 }

/-- Fixture: a bus on which only the 8-bit load faults; 16- and 32-bit loads
succeed. -/
def busByteFaults : BusOps Unit :=
  { busNull with
      load8 := fun _ _ => .error .AccessFault
      load16 := fun _ _ => .ok 0xBBAA
      load32 := fun _ _ => .ok 0xDDCCBBAA }

/-- Fixture: a supervisor-mode hart with the IllegalInstruction bit (bit 2)
set in `medeleg`. -/
def hartSuperDeleg : Hart Unit :=
  { Hart.new () with
      privilege := .Supervisor
      csr := { (Hart.new ()).csr with medeleg := 4 } }

/-- Fixture: a machine-mode hart at `pc = 8` whose `mtvec` is `0x100`
(direct mode). -/
def hartFetchTrap : Hart Unit :=
  { Hart.new () with pc := 8, csr := { (Hart.new ()).csr with mtvec := 0x100 } }

/-- Fixture: a hart whose `mtvec` and `stvec` both hold 1 (vectored mode). -/
def hartVectored : Hart Unit :=
  { Hart.new () with
      pc := 12
      next := 16
      csr := { (Hart.new ()).csr with mtvec := 1, stvec := 1 } }

/-- C1: the claim states that a legal CSR access returns the value stored
before the update function is applied, so `CSRRW x5, mscratch, x5` with
`mscratch = 0xAA` and `x5 = 0x55` should leave `gpr[5] = 0xAA`.  The code
disagrees: `Scratch::access` (`cellAccess`) performs the update first and
returns the updated value, so the scenario leaves `gpr[5] = 0x55`, both at
the `csrrw` handler level and through a full `execute` step. -/
theorem c1_csrrw_returns_updated_value :
    cellAccess 0xAA (fun _ => 0x55) = (0x55, 0x55) ∧
    (csrrw busNull hartScenF 0x340292F3).csr.mscratch = 0x55 ∧
    (csrrw busNull hartScenF 0x340292F3).gpr 5 = 0x55 ∧
    (execute busCsrrwScratch hartScenF).gpr 5 = 0x55 ∧
    (execute busCsrrwScratch hartScenF).csr.mscratch = 0x55 ∧
    (0x55 : Nat) ≠ 0xAA := by
  refine ⟨by decide, by decide, by decide, by decide, by decide, by decide⟩

/-- C2 counterexample: executing `ADDI x0, x1, 1` with `x1 = 5` leaves
`gpr[0] = 6 ≠ 0` when `execute()` returns, refuting the claim that `gpr[0]`
reads as zero immediately after any `execute()`, including when the
instruction names `x0` as its destination. -/
theorem c2_counterexample_addi_x0 :
    (execute busAddiX0 hartX1Five).gpr 0 = 6 ∧
      ¬ (execute busAddiX0 hartX1Five).gpr 0 = 0 := by
  refine ⟨by decide, by decide⟩

/-- C2 amended: `gpr[0]` is forced to zero at the start of each step — after
a successful fetch and before the decoded handler runs (the handler input
state is `preState h`, whose `gpr 0` is zero) — rather than after
`execute()` returns; a handler write to `x0` can persist past the end of the
step and is erased at the start of the next one. -/
theorem c2_amended_x0_reset_at_step_start :
    ∀ (B : Type) (ops : BusOps B) (h : Hart B) (raw : Nat),
      ops.load32 h.bus h.pc = .ok raw →
      (preState h).gpr 0 = 0 ∧
      execute ops h =
        { decode (funct3Opcode raw) ops (preState h) raw with
            pc := (decode (funct3Opcode raw) ops (preState h) raw).next } :=
  fun _ ops h raw hl => ⟨rfl, execute_ok ops h raw hl⟩

theorem c2_amended_x0_reset_witness :
    busAddiX0.load32 hartX1Five.bus hartX1Five.pc = .ok 0x00108013 ∧
    ((preState hartX1Five).gpr 0 = 0 ∧
      execute busAddiX0 hartX1Five =
        { decode (funct3Opcode 0x00108013) busAddiX0 (preState hartX1Five) 0x00108013 with
            pc := (decode (funct3Opcode 0x00108013) busAddiX0 (preState hartX1Five)
              0x00108013).next }) :=
  ⟨rfl, c2_amended_x0_reset_at_step_start Unit busAddiX0 hartX1Five 0x00108013 rfl⟩

/-- C3: the claim states the privilege check fails exactly when the hart's
privilege is below the minimum encoded in address bits [9:8], so Machine
passes every check (e.g. may access `sscratch` at 0x140).  The code's
`is_sufficient_privilege` compares in the wrong direction
(`addr[9:8] >= privilege`): Machine fails the check for `sscratch` (a
machine-mode `CSRRW` to 0x140 raises IllegalInstruction), while User passes
the check for `mstatus` at 0x300. -/
theorem c3_privilege_check_inverted :
    is_sufficient_privilege 0x140 .Machine = false ∧
    (csrrw busNull (Hart.new ()) 0x140292F3).raised = some .IllegalInstruction ∧
    is_sufficient_privilege 0x340 .Machine = true ∧
    is_sufficient_privilege 0x300 .User = true := by
  refine ⟨by decide, by decide, by decide, by decide⟩

/-- C4: on the Memory back-end, an access of width w at address A succeeds
iff `A + w ≤ size` (computed without wraparound) and `A % w = 0`; the bounds
check takes precedence (AccessFault) over the alignment check
(AddressMisaligned), and a failing store leaves the buffer unchanged. -/
theorem c4_memory_access_conditions :
    ∀ (data : List Nat) (address w value : Nat),
      (w = 1 ∨ w = 2 ∨ w = 4 ∨ w = 8) → address < pow64 → data.length < pow64 →
      ((∃ val, memLoad w data address = .ok val) ↔
        (address + w ≤ data.length ∧ address % w = 0)) ∧
      ((memStore w data address value).2 = none ↔
        (address + w ≤ data.length ∧ address % w = 0)) ∧
      (data.length < address + w →
        memLoad w data address = .error .AccessFault ∧
        (memStore w data address value).2 = some .AccessFault) ∧
      (address + w ≤ data.length → address % w ≠ 0 →
        memLoad w data address = .error .AddressMisaligned ∧
        (memStore w data address value).2 = some .AddressMisaligned) ∧
      (∀ e, (memStore w data address value).2 = some e →
        (memStore w data address value).1 = data) := by
  intro data address w value hw ha hs
  have h1 : 1 ≤ w := by rcases hw with rfl | rfl | rfl | rfl <;> norm_num
  have h8 : w ≤ 8 := by rcases hw with rfl | rfl | rfl | rfl <;> norm_num
  have hcd := calculate_destination_spec data.length w address h1 h8 ha hs
  by_cases hb : address + w ≤ data.length
  · by_cases hal : address % w = 0
    · have hl : memLoad w data address = .ok (readLE data address w) := by
        rw [memLoad, hcd, if_pos hb, if_pos hal]
      have hst : memStore w data address value = (writeLE data address value w, none) := by
        rw [memStore, hcd, if_pos hb, if_pos hal]
      refine ⟨iff_of_true ⟨readLE data address w, hl⟩ ⟨hb, hal⟩,
        iff_of_true (by rw [hst]) ⟨hb, hal⟩,
        fun hlt => absurd hb (by omega),
        fun _ hno => absurd hal hno,
        ?_⟩
      rw [hst]
      intro e he
      exact Option.noConfusion he
    · have hl : memLoad w data address = .error .AddressMisaligned := by
        rw [memLoad, hcd, if_pos hb, if_neg hal]
      have hst : memStore w data address value = (data, some .AddressMisaligned) := by
        rw [memStore, hcd, if_pos hb, if_neg hal]
      refine ⟨iff_of_false (fun hex => ?_) (fun hrhs => hal hrhs.2),
        iff_of_false (by rw [hst]; exact fun hn => Option.noConfusion hn)
          (fun hrhs => hal hrhs.2),
        fun hlt => absurd hb (by omega),
        fun _ _ => ⟨hl, by rw [hst]⟩,
        by rw [hst]; intro e _; rfl⟩
      obtain ⟨val, hval⟩ := hex
      rw [hl] at hval
      exact Except.noConfusion hval
  · have hl : memLoad w data address = .error .AccessFault := by
      rw [memLoad, hcd, if_neg hb]
    have hst : memStore w data address value = (data, some .AccessFault) := by
      rw [memStore, hcd, if_neg hb]
    refine ⟨iff_of_false (fun hex => ?_) (fun hrhs => hb hrhs.1),
      iff_of_false (by rw [hst]; exact fun hn => Option.noConfusion hn)
        (fun hrhs => hb hrhs.1),
      fun _ => ⟨hl, by rw [hst]⟩,
      fun hble _ => absurd hble hb,
      by rw [hst]; intro e _; rfl⟩
    obtain ⟨val, hval⟩ := hex
    rw [hl] at hval
    exact Except.noConfusion hval

theorem c4_memory_access_witness :
    ((∃ val, memLoad 4 [0, 0, 0, 0] 0 = .ok val) ↔
      (0 + 4 ≤ [0, 0, 0, 0].length ∧ 0 % 4 = 0)) ∧
    ((memStore 4 [0, 0, 0, 0] 0 7).2 = none ↔
      (0 + 4 ≤ [0, 0, 0, 0].length ∧ 0 % 4 = 0)) ∧
    ([0, 0, 0, 0].length < 0 + 4 →
      memLoad 4 [0, 0, 0, 0] 0 = .error .AccessFault ∧
      (memStore 4 [0, 0, 0, 0] 0 7).2 = some .AccessFault) ∧
    (0 + 4 ≤ [0, 0, 0, 0].length → 0 % 4 ≠ 0 →
      memLoad 4 [0, 0, 0, 0] 0 = .error .AddressMisaligned ∧
      (memStore 4 [0, 0, 0, 0] 0 7).2 = some .AddressMisaligned) ∧
    (∀ e, (memStore 4 [0, 0, 0, 0] 0 7).2 = some e →
      (memStore 4 [0, 0, 0, 0] 0 7).1 = [0, 0, 0, 0]) :=
  c4_memory_access_conditions [0, 0, 0, 0] 0 4 7 (by decide) (by decide) (by decide)

/-- C5: the claim states LHU issues a 16-bit bus load (and LWU a 32-bit one)
and writes the loaded value zero-extended to `rd`.  The code declares both
handlers with the bound `B: Bus<u64, u8>`, so each issues an 8-bit load: on
a bus serving 0xAA for bytes and 0xBBAA for halfwords, `LHU x3, 0(x2)`
writes 0xAA, not 0xBBAA; and on a bus where only the byte lane faults, LHU
raises LoadAccessFault even though the 16-bit load would have succeeded. -/
theorem c5_lhu_lwu_issue_byte_loads :
    (lhu busWidths (Hart.new ()) 0x00015183).gpr 3 = 0xAA ∧
    (lwu busWidths (Hart.new ()) 0x00016183).gpr 3 = 0xAA ∧
    (lhu busByteFaults (Hart.new ()) 0x00015183).raised = some .LoadAccessFault ∧
    busByteFaults.load16 () 0 = .ok 0xBBAA ∧
    (0xAA : Nat) ≠ 0xBBAA ∧ (0xAA : Nat) ≠ 0xDDCCBBAA := by
  refine ⟨by decide, by decide, by decide, by rfl, by decide, by decide⟩

/-- The J-type immediate as the specification words define it:
`sign_extend(bits[31] ‖ bits[19:12] ‖ bits[20] ‖ bits[30:21] ‖ 0, 21)`,
as a 64-bit pattern.  This definition follows the spec, for comparison with
the source's `j_imm64`. -/
def j_imm_spec (raw : Nat) : Nat :=
  let imm21 := (raw >>> 31 &&& 1) <<< 20 ||| (raw >>> 12 &&& 0xFF) <<< 12 |||
    (raw >>> 20 &&& 1) <<< 11 ||| (raw >>> 21 &&& 0x3FF) <<< 1
  if imm21.testBit 20 then imm21 + (pow64 - 2 ^ 21) else imm21

/-- Fixture: a bus whose instruction fetch always yields
`JAL x0, +4096` (encoding 0x0000106F, offset bits [19:12] = 0x01). -/
def busJal4096 : BusOps Unit :=
  { busNull with load32 := fun _ _ => .ok 0x0000106F }

/-- C6: the claim states the J-immediate equals
`sign_extend(bits[31]‖bits[19:12]‖bits[20]‖bits[30:21]‖0, 21)` and that JAL
jumps to `pc` plus that value, with bits [19:12] of the offset taken from
raw bits 19:12.  The code's `j_imm` has no term extracting raw bits 19:12 —
the arithmetic shift fills those offset bits with raw bit 31 — so for
`JAL x0, +4096` (raw 0x0000106F) the spec formula gives 4096 while the code
computes 0 and the jump lands back on `pc`. -/
theorem c6_j_imm_drops_bits_19_12 :
    j_imm_spec 0x0000106F = 4096 ∧
    j_imm64 0x0000106F = 0 ∧
    j_imm64 0x0000106F ≠ j_imm_spec 0x0000106F ∧
    (jal busNull (Hart.new ()) 0x0000106F).next = 0 ∧
    (execute busJal4096 (Hart.new ())).pc = 0 ∧
    (0 : Nat) ≠ 4096 := by
  refine ⟨by decide, by decide, by decide, by decide, by decide, by decide⟩

/-- C7: for every trap actually raised by `execute` while the privilege is
User or Supervisor, delegation to Supervisor is decided by the register
appropriate to the trap's kind.  The code tests
`medeleg.is_delegated || mideleg.is_delegated` regardless of kind, but (1)
no path of `execute` writes `mideleg` and (2) a fresh hart has `mideleg = 0`,
so `mideleg`'s contribution is always zero, and (3) every cause `execute`
raises is an exception; under those invariants (4) the trap transition picks
the Supervisor handler exactly when the privilege is User or Supervisor and
`medeleg` has the bit indexed by the cause code, and otherwise — in
particular always from Machine — the Machine handler. -/
theorem c7_trap_delegation :
    (∀ (B : Type) (ops : BusOps B) (h : Hart B),
      (execute ops h).csr.mideleg = h.csr.mideleg) ∧
    (∀ (B : Type) (bus : B), (Hart.new bus).csr.mideleg = 0) ∧
    (∀ (B : Type) (ops : BusOps B) (h : Hart B) (c : TrapCause),
      (execute ops h).raised = some c → c.isInterrupt = false) ∧
    (∀ (B : Type) (h : Hart B) (c : TrapCause) (v : Nat),
      c.isInterrupt = false → h.csr.mideleg = 0 →
      trap h c v =
        if (h.privilege = .User ∨ h.privilege = .Supervisor) ∧
            h.csr.medeleg.testBit c.val then
          handleTrapSupervisor { h with raised := some c, privilege := .Supervisor } c v
        else
          handleTrapMachine { h with raised := some c, privilege := .Machine } c v) := by
  refine ⟨fun B ops h => execute_mideleg ops h, fun B bus => rfl,
    fun B ops h c => execute_raised_exception ops h c, ?_⟩
  intro B h c v hc hm
  rw [trap_eq]
  have hdec : trapsToSupervisor h c =
      decide ((h.privilege = .User ∨ h.privilege = .Supervisor) ∧
        h.csr.medeleg.testBit c.val = true) := by
    rw [trapsToSupervisor, hm, isDelegated_zero, isDelegated_exception hc]
    cases hp : h.privilege <;> cases hb : h.csr.medeleg.testBit c.val <;> simp
  rw [hdec]
  by_cases hq : (h.privilege = .User ∨ h.privilege = .Supervisor) ∧
      h.csr.medeleg.testBit c.val = true
  · rw [if_pos (decide_eq_true hq), if_pos hq]
  · rw [if_neg (fun hd => hq (of_decide_eq_true hd)), if_neg hq]

theorem c7_trap_delegation_witness :
    TrapCause.IllegalInstruction.isInterrupt = false ∧
    hartSuperDeleg.csr.mideleg = 0 ∧
    trap hartSuperDeleg .IllegalInstruction 0 =
      (if (hartSuperDeleg.privilege = .User ∨ hartSuperDeleg.privilege = .Supervisor) ∧
          hartSuperDeleg.csr.medeleg.testBit TrapCause.IllegalInstruction.val then
        handleTrapSupervisor
          { hartSuperDeleg with raised := some .IllegalInstruction, privilege := .Supervisor }
          .IllegalInstruction 0
      else
        handleTrapMachine
          { hartSuperDeleg with raised := some .IllegalInstruction, privilege := .Machine }
          .IllegalInstruction 0) :=
  ⟨by decide, rfl,
    c7_trap_delegation.2.2.2 Unit hartSuperDeleg .IllegalInstruction 0 (by decide) rfl⟩

/-- C8 counterexample: a trap raised at the fetch step (here an
InstructionAccessFault with `mtvec = 0x100` in direct mode) returns from
`execute` with `pc` still at its pre-step value 8, not at the handler base;
the handler address only reaches `next`. -/
theorem c8_counterexample_fetch_trap :
    (execute busNull hartFetchTrap).raised = some .InstructionAccessFault ∧
    tvecMode hartFetchTrap.csr.mtvec = 0 ∧
    trapsToSupervisor hartFetchTrap .InstructionAccessFault = false ∧
    (execute busNull hartFetchTrap).pc = 8 ∧
    (execute busNull hartFetchTrap).pc ≠ tvecBase hartFetchTrap.csr.mtvec ∧
    (execute busNull hartFetchTrap).next = tvecBase hartFetchTrap.csr.mtvec := by
  refine ⟨by decide, by decide, by decide, by decide, by decide, by decide⟩

/-- C8 amended: when a trap is raised during `execute` and the selected tvec
(stvec or mtvec, by the delegation outcome) has mode 0, then: if the fetch
succeeded (the trap came from an instruction handler), `pc` equals the
selected tvec base when `execute` returns; if the fetch itself trapped,
`execute` returns early without committing — `pc` keeps its pre-step value
and `next` holds the selected tvec base instead. -/
theorem c8_amended_trap_pc_commit :
    ∀ (B : Type) (ops : BusOps B) (h : Hart B) (c : TrapCause),
      (execute ops h).raised = some c →
      ((∀ raw, ops.load32 h.bus h.pc = .ok raw →
          (if trapsToSupervisor h c then
            (tvecMode h.csr.stvec = 0 → (execute ops h).pc = tvecBase h.csr.stvec)
          else
            (tvecMode h.csr.mtvec = 0 → (execute ops h).pc = tvecBase h.csr.mtvec))) ∧
        (∀ e, ops.load32 h.bus h.pc = .error e →
          (execute ops h).pc = h.pc ∧
          (if trapsToSupervisor h c then
            (tvecMode h.csr.stvec = 0 → (execute ops h).next = tvecBase h.csr.stvec)
          else
            (tvecMode h.csr.mtvec = 0 → (execute ops h).next = tvecBase h.csr.mtvec)))) := by
  intro B ops h c hr
  constructor
  · intro raw hl
    rw [execute_ok ops h raw hl] at hr ⊢
    rcases (decode_hspec (funct3Opcode raw) ops (preState h) raw).2.2 with
      hsame | ⟨c', v, h0, hc', fr, he⟩
    · have hn : (preState h).raised = some c := by
        rw [← hsame]
        exact hr
      exact Option.noConfusion hn
    · have hrr : (decode (funct3Opcode raw) ops (preState h) raw).raised = some c := hr
      rw [he, trap_raised] at hrr
      cases hrr
      have hts : trapsToSupervisor h0 c = trapsToSupervisor h c :=
        (trapsToSupervisor_congr c fr).trans rfl
      have hst : h0.csr.stvec = h.csr.stvec := fr.2.2.2.1
      have hmt : h0.csr.mtvec = h.csr.mtvec := fr.2.2.2.2.1
      have hnext : (decode (funct3Opcode raw) ops (preState h) raw).next =
          if trapsToSupervisor h c then
            (if tvecMode h.csr.stvec = 0 then tvecBase h.csr.stvec else h0.next)
          else
            (if tvecMode h.csr.mtvec = 0 then tvecBase h.csr.mtvec else h0.next) := by
        rw [he, trap_next, hts, hst, hmt]
      by_cases hsup : trapsToSupervisor h c = true
      · rw [if_pos hsup]
        intro hmode
        show (decode (funct3Opcode raw) ops (preState h) raw).next = tvecBase h.csr.stvec
        rw [hnext, if_pos hsup, if_pos hmode]
      · rw [if_neg hsup]
        intro hmode
        show (decode (funct3Opcode raw) ops (preState h) raw).next = tvecBase h.csr.mtvec
        rw [hnext, if_neg hsup, if_pos hmode]
  · intro e hl
    cases e
    · rw [execute_err_access ops h hl] at hr ⊢
      rw [trap_raised] at hr
      cases hr
      refine ⟨trap_pc _ _ _, ?_⟩
      have hts : trapsToSupervisor { h with raised := none } .InstructionAccessFault =
          trapsToSupervisor h .InstructionAccessFault := rfl
      have hnext := trap_next { h with raised := none } TrapCause.InstructionAccessFault h.pc
      rw [hts] at hnext
      by_cases hsup : trapsToSupervisor h TrapCause.InstructionAccessFault = true
      · rw [if_pos hsup]
        intro hmode
        rw [hnext, if_pos hsup]
        rw [if_pos hmode]
      · rw [if_neg hsup]
        intro hmode
        rw [hnext, if_neg hsup]
        rw [if_pos hmode]
    · rw [execute_err_misaligned ops h hl] at hr ⊢
      rw [trap_raised] at hr
      cases hr
      refine ⟨trap_pc _ _ _, ?_⟩
      have hts : trapsToSupervisor { h with raised := none } .InstructionAddressMisaligned =
          trapsToSupervisor h .InstructionAddressMisaligned := rfl
      have hnext := trap_next { h with raised := none } TrapCause.InstructionAddressMisaligned h.pc
      rw [hts] at hnext
      by_cases hsup : trapsToSupervisor h TrapCause.InstructionAddressMisaligned = true
      · rw [if_pos hsup]
        intro hmode
        rw [hnext, if_pos hsup]
        rw [if_pos hmode]
      · rw [if_neg hsup]
        intro hmode
        rw [hnext, if_neg hsup]
        rw [if_pos hmode]

theorem c8_amended_trap_pc_commit_witness :
    (execute busNull hartFetchTrap).raised = some .InstructionAccessFault ∧
    busNull.load32 hartFetchTrap.bus hartFetchTrap.pc = .error .AccessFault ∧
    ((execute busNull hartFetchTrap).pc = hartFetchTrap.pc ∧
      (if trapsToSupervisor hartFetchTrap .InstructionAccessFault then
        (tvecMode hartFetchTrap.csr.stvec = 0 →
          (execute busNull hartFetchTrap).next = tvecBase hartFetchTrap.csr.stvec)
      else
        (tvecMode hartFetchTrap.csr.mtvec = 0 →
          (execute busNull hartFetchTrap).next = tvecBase hartFetchTrap.csr.mtvec))) :=
  ⟨by decide, rfl,
    (c8_amended_trap_pc_commit Unit busNull hartFetchTrap .InstructionAccessFault
      (by decide)).2 .AccessFault rfl⟩

/-- C9: starting from `Hart::new` (pc = next = 0) and any bus, every value
`execute` commits to `pc` (and every value held in `next` at the end of a
step) has its low two bits clear: one step preserves 4-byte alignment of
`pc` and `next`, and the invariant holds after any number of steps. -/
theorem c9_pc_alignment :
    (∀ (B : Type) (ops : BusOps B) (h : Hart B),
      h.pc &&& 3 = 0 → h.next &&& 3 = 0 →
      (execute ops h).pc &&& 3 = 0 ∧ (execute ops h).next &&& 3 = 0) ∧
    (∀ (B : Type) (ops : BusOps B) (bus : B) (n : Nat),
      ((execute ops)^[n] (Hart.new bus)).pc &&& 3 = 0 ∧
      ((execute ops)^[n] (Hart.new bus)).next &&& 3 = 0) := by
  refine ⟨fun B ops h hpc hnx => execute_align ops h hpc hnx, ?_⟩
  intro B ops bus n
  induction n with
  | zero =>
    rw [Function.iterate_zero_apply]
    exact ⟨Nat.zero_and 3, Nat.zero_and 3⟩
  | succ n ih =>
    rw [Function.iterate_succ_apply']
    exact execute_align ops _ ih.1 ih.2

theorem c9_pc_alignment_witness :
    (Hart.new ()).pc &&& 3 = 0 ∧ (Hart.new ()).next &&& 3 = 0 ∧
    ((execute busNull (Hart.new ())).pc &&& 3 = 0 ∧
      (execute busNull (Hart.new ())).next &&& 3 = 0) :=
  ⟨by decide, by decide,
    c9_pc_alignment.1 Unit busNull (Hart.new ()) (by decide) (by decide)⟩

/-- C10: when the selected tvec has a nonzero mode field, the trap
transition writes cause, epc (`next` for interrupts, `pc` for exceptions)
and tval but leaves every other component — in particular `next`, so control
falls through to the previously computed next — unchanged. -/
theorem c10_nonzero_tvec_mode_leaves_next :
    ∀ (B : Type) (h : Hart B) (c : TrapCause) (v : Nat),
      (tvecMode h.csr.mtvec ≠ 0 →
        handleTrapMachine h c v =
          { h with csr := { h.csr with
              mcause := c.val
              mepc := if c.isInterrupt then h.next else h.pc
              mtval := v } }) ∧
      (tvecMode h.csr.stvec ≠ 0 →
        handleTrapSupervisor h c v =
          { h with csr := { h.csr with
              scause := c.val
              sepc := if c.isInterrupt then h.next else h.pc
              stval := v } }) := by
  intro B h c v
  constructor
  · intro hm
    rw [handleTrapMachine]
    rw [if_neg hm]
  · intro hm
    rw [handleTrapSupervisor]
    rw [if_neg hm]

theorem c10_nonzero_tvec_mode_witness :
    tvecMode hartVectored.csr.mtvec ≠ 0 ∧
    handleTrapMachine hartVectored .Breakpoint 7 =
      { hartVectored with csr := { hartVectored.csr with
          mcause := TrapCause.Breakpoint.val
          mepc := if TrapCause.Breakpoint.isInterrupt then hartVectored.next
            else hartVectored.pc
          mtval := 7 } } :=
  ⟨by decide,
    (c10_nonzero_tvec_mode_leaves_next Unit hartVectored .Breakpoint 7).1 (by decide)⟩

end Rv


